import Mathlib

/-!
Verification of the feedback-bot conversation state machine and
question-routing engine.

The Go program is shallowly embedded: the persistence layer (gorm/SQLite)
is modelled as an in-memory `Store` of record lists with auto-increment
primary keys (`Save` with id 0 appends a fresh record, otherwise it
replaces the record(s) with that id, matching an UPDATE by primary key);
the messaging gateway is modelled by a list of delivered `Out` operations
together with a send oracle `ora : Nat → Bool` deciding whether the n-th
`Send` call succeeds (store writes are modelled as infallible, so the Go
branches handling store-write errors are unreachable and collapse; the
send-failure branches, including the rollback-to-previous-state calls,
are modelled faithfully).  Record lists are kept in primary-key order
(appends use strictly increasing ids), under which gorm's `First` (ORDER
BY id LIMIT 1) coincides with `List.find?`; `GetCorrespondenceByQuestion`,
whose ORDER BY id is load-bearing for replay, sorts explicitly.
Calendar time only feeds the review-listing message texts; it is modelled
by a `now : Nat` day counter (a month is abstracted to 30 days).
-/

namespace FeedbackBot

/-! ## User states (constants from parsers.go) -/

def SNew : Nat := 1
def SMain : Nat := 2
def SReview : Nat := 3
def SReviewText : Nat := 4
def SQuestion : Nat := 5
def SQuestionDiscussion : Nat := 6
def SSwitchReceiver : Nat := 7
def SSearchQuestion : Nat := 8

/-- Callback data type constant `CBQuestion`. -/
def CBQuestion : Int := 1

/-! Date interval constants. -/

def RDay : Nat := 1
def RWeek : Nat := 2
def RMonth : Nat := 3
def RAll : Nat := 4

/-! ## Data model (schema from the database package) -/

/-- User table row. -/
structure User where
  id : Nat
  chatID : Int
  nickname : String
  state : Nat
  isEmployee : Bool
  isReceiver : Bool
deriving DecidableEq, Repr

/-- Review table row (`createdAt` is the gorm CreatedAt timestamp). -/
structure Review where
  id : Nat
  createdAt : Nat
  rating : Nat
  text : String
  userID : Nat
deriving DecidableEq, Repr

/-- Question table row. -/
structure Question where
  id : Nat
  header : String
  userID : Nat
  answererID : Nat
  haveAnswer : Bool
  isClosed : Bool
deriving DecidableEq, Repr

/-- QuestionCorrespondence table row. -/
structure QuestionCorrespondence where
  id : Nat
  questionID : Nat
  messageID : Nat
  userID : Nat
  isEmployee : Bool
deriving DecidableEq, Repr

/-- The relational store: record lists in primary-key order plus
auto-increment counters. -/
structure Store where
  users : List User
  reviews : List Review
  questions : List Question
  corrs : List QuestionCorrespondence
  nextUserId : Nat
  nextReviewId : Nat
  nextQuestionId : Nat
  nextCorrId : Nat
deriving DecidableEq, Repr

/-! ## Save (gorm upsert by primary key) -/

/-- Save a User: id 0 means a fresh record (auto-increment), otherwise an
update of the record with that primary key. -/
def saveUser (u : User) (s : Store) : User × Store :=
  if u.id = 0 then
    let u' := { u with id := s.nextUserId }
    (u', { s with users := s.users ++ [u'], nextUserId := s.nextUserId + 1 })
  else
    (u, { s with users := s.users.map (fun v => if v.id = u.id then u else v) })

/-- Save a Review. -/
def saveReview (r : Review) (s : Store) : Review × Store :=
  if r.id = 0 then
    let r' := { r with id := s.nextReviewId }
    (r', { s with reviews := s.reviews ++ [r'], nextReviewId := s.nextReviewId + 1 })
  else
    (r, { s with reviews := s.reviews.map (fun v => if v.id = r.id then r else v) })

/-- Save a Question. -/
def saveQuestion (q : Question) (s : Store) : Question × Store :=
  if q.id = 0 then
    let q' := { q with id := s.nextQuestionId }
    (q', { s with questions := s.questions ++ [q'], nextQuestionId := s.nextQuestionId + 1 })
  else
    (q, { s with questions := s.questions.map (fun v => if v.id = q.id then q else v) })

/-- Save a QuestionCorrespondence. -/
def saveCorr (c : QuestionCorrespondence) (s : Store) : QuestionCorrespondence × Store :=
  if c.id = 0 then
    let c' := { c with id := s.nextCorrId }
    (c', { s with corrs := s.corrs ++ [c'], nextCorrId := s.nextCorrId + 1 })
  else
    (c, { s with corrs := s.corrs.map (fun v => if v.id = c.id then c else v) })

/-! ## Store queries (database package) -/

/-- GetUserByChatID. -/
def getUserByChatID (chatId : Int) (s : Store) : Option User :=
  s.users.find? (fun u => u.chatID == chatId)

/-- Lookup of a preloaded association row by user id. -/
def getUserById (uid : Nat) (s : Store) : Option User :=
  s.users.find? (fun u => u.id == uid)

/-- Chat id of the user with store id `uid`; 0 when absent (a gorm preload
of a missing association leaves the zero User). -/
def chatOfUserId (uid : Nat) (s : Store) : Int :=
  ((getUserById uid s).map (fun u => u.chatID)).getD 0

/-- GetOpenQuestionByUser: the first unclosed question of the given asker. -/
def getOpenQuestionByUser (u : User) (s : Store) : Option Question :=
  s.questions.find? (fun q => q.userID == u.id && q.isClosed == false)

/-- GetOpenQuestionByAnswerer: the first unclosed question claimed by the
given answerer. -/
def getOpenQuestionByAnswerer (u : User) (s : Store) : Option Question :=
  s.questions.find? (fun q => q.answererID == u.id && q.isClosed == false)

/-- GetNewQuestionById: the question with the given id, filtered to
unclaimed (answerer 0), without answer, and unclosed. -/
def getNewQuestionById (i : Int) (s : Store) : Option Question :=
  s.questions.find? (fun q =>
    ((q.id : Int) == i) && q.answererID == 0 && q.haveAnswer == false && q.isClosed == false)

/-- GetNewQuestions: all unclaimed, unanswered, unclosed questions. -/
def getNewQuestions (s : Store) : List Question :=
  s.questions.filter (fun q => q.answererID == 0 && q.haveAnswer == false && q.isClosed == false)

/-- GetReceivers: employees with IsReceiver set for which no question row
records them as answerer (the NOT EXISTS subquery in the Go source). -/
def getReceivers (s : Store) : List User :=
  s.users.filter (fun u => u.isEmployee && u.isReceiver &&
    !(s.questions.any (fun q => q.answererID == u.id)))

/-- GetQuestionById. -/
def getQuestionById (i : Int) (s : Store) : Option Question :=
  s.questions.find? (fun q => (q.id : Int) == i)

/-- GetEmptyReview: the review of the given user whose text is still empty. -/
def getEmptyReview (u : User) (s : Store) : Option Review :=
  s.reviews.find? (fun r => r.userID == u.id && r.text == "")

/-- GetReviewsInRange: reviews created between `sDate` and `fDate`. -/
def getReviewsInRange (fDate sDate : Nat) (s : Store) : List Review :=
  s.reviews.filter (fun r => sDate ≤ r.createdAt && r.createdAt ≤ fDate)

/-- GetCountReviewsByRating: review counts for ratings 1..5. -/
def getCountReviewsByRating (s : Store) : List Nat :=
  (List.range 5).map (fun i => (s.reviews.filter (fun r => r.rating == i + 1)).length)

/-- Insertion into a correspondence list sorted by id. -/
def insertById (c : QuestionCorrespondence) :
    List QuestionCorrespondence → List QuestionCorrespondence
  | [] => [c]
  | d :: ds => if c.id ≤ d.id then c :: d :: ds else d :: insertById c ds

/-- Insertion sort by id (the ORDER BY id ASC of the correspondence query). -/
def orderById : List QuestionCorrespondence → List QuestionCorrespondence
  | [] => []
  | c :: cs => insertById c (orderById cs)

/-- GetCorrespondenceByQuestion: the question's correspondence rows ordered
by id ascending (creation order). -/
def getCorrespondenceByQuestion (q : Question) (s : Store) : List QuestionCorrespondence :=
  orderById (s.corrs.filter (fun c => c.questionID == q.id))

/-! ## Store mutations (database package) -/

/-- ChangeUserState. -/
def changeUserState (st : Nat) (u : User) (s : Store) : User × Store :=
  saveUser { u with state := st } s

/-- ChangeUserIsReceiver. -/
def changeUserIsReceiver (b : Bool) (u : User) (s : Store) : User × Store :=
  saveUser { u with isReceiver := b } s

/-- ChangeQuestionHaveAnswer. -/
def changeQuestionHaveAnswer (b : Bool) (q : Question) (s : Store) : Question × Store :=
  saveQuestion { q with haveAnswer := b } s

/-- ChangeQuestionAnswerer. -/
def changeQuestionAnswerer (aid : Nat) (q : Question) (s : Store) : Question × Store :=
  saveQuestion { q with answererID := aid } s

/-- ChangeQuestionIsClosed. -/
def changeQuestionIsClosed (b : Bool) (q : Question) (s : Store) : Question × Store :=
  saveQuestion { q with isClosed := b } s

/-- AddUser: find a user by chat id or nickname (zero User when absent),
overwrite identity and state, reset IsReceiver to false, and save. -/
def addUser (chatId : Int) (nick : String) (st : Nat) (s : Store) : User × Store :=
  let u0 := (s.users.find? (fun u => u.chatID == chatId || u.nickname == nick)).getD
    { id := 0, chatID := 0, nickname := "", state := 0, isEmployee := false, isReceiver := false }
  saveUser { u0 with nickname := nick, chatID := chatId, state := st, isReceiver := false } s

/-- AddQuestion: create a fresh open question for the given asker. -/
def addQuestion (header : String) (u : User) (s : Store) : Question × Store :=
  saveQuestion
    { id := 0, header := header, userID := u.id, answererID := 0,
      haveAnswer := false, isClosed := false } s

/-- ChangeTextReviewByUser: fill in the pending empty review's text. -/
def changeTextReviewByUser (text : String) (u : User) (s : Store) : Store :=
  match getEmptyReview u s with
  | none => s
  | some r => (saveReview { r with text := text } s).2

/-- AddCorrespondence: locate the sender's open question (by answerer for
employees, by asker otherwise) and append an entry for the message.  The Go
source hardcodes the entry's IsEmployee field to false. -/
def addCorrespondence (u : User) (messageId : Nat) (s : Store) :
    Option QuestionCorrespondence × Store :=
  let q? := if u.isEmployee then getOpenQuestionByAnswerer u s else getOpenQuestionByUser u s
  match q? with
  | none => (none, s)
  | some q =>
    let r := saveCorr
      { id := 0, questionID := q.id, messageID := messageId, userID := u.id,
        isEmployee := false } s
    (some r.1, r.2)

/-! ## Messaging gateway -/

/-- Keyboard markup attached to an outbound text message. -/
inductive Markup
  | plain
  | reply (buttons : List String)
  | inlineBtn (text : String) (data : String)
deriving DecidableEq, Repr

/-- A delivered outbound operation. -/
inductive Out
  | send (chat : Int) (text : String) (markup : Markup)
  | forward (toChat : Int) (fromChat : Int) (messageId : Nat)
  | copyMsg (toChat : Int) (fromChat : Int) (messageId : Nat)
deriving DecidableEq, Repr

/-- World state threaded through dispatch: the store, the persisted offset
(the viper config "offset" key), delivered outbound operations in order,
and the index of the next gateway Send call (consumed by the oracle). -/
structure World where
  store : Store
  offset : Nat
  outs : List Out
  tick : Nat
deriving DecidableEq, Repr

/-- Perform one gateway Send: the oracle decides success; the operation is
delivered (recorded) only on success.  Returns the success flag. -/
def sendO (ora : Nat → Bool) (o : Out) (w : World) : World × Bool :=
  if ora w.tick then
    ({ w with tick := w.tick + 1, outs := w.outs ++ [o] }, true)
  else
    ({ w with tick := w.tick + 1 }, false)

/-! ## Button sets (responser.go) -/

def UserMain : Nat := 1
def UserStars : Nat := 2
def UserClose : Nat := 3
def EmplMain : Nat := 4
def EmplMainR : Nat := 5
def EmplReview : Nat := 6
def EmplExit : Nat := 7

/-- Button texts for each reply-keyboard set. -/
def buttons (key : Nat) : List String :=
  if key = UserMain then ["⭐Review", "❓Question"]
  else if key = UserStars then ["⭐⭐⭐⭐⭐", "⭐⭐⭐⭐", "⭐⭐⭐", "⭐⭐", "⭐"]
  else if key = UserClose then ["❌Close"]
  else if key = EmplMain then
    ["❓Receive questions", "❓Open questions", "❓Find a question", "⭐Reviews"]
  else if key = EmplMainR then
    ["❓Do not receive questions", "❓Open questions", "❓Find a question", "⭐Reviews"]
  else if key = EmplReview then
    ["📅For a day", "📅For a week", "📅For a month", "📅All (no text)", "↩️Back"]
  else if key = EmplExit then ["↩️Back"]
  else []

/-! ## Prompt rendering (responser.go) -/

/-- responserCommandUser: reply to the /start command of a customer. -/
def responserCommandUser (ora : Nat → Bool) (command : String) (u : User) (w : World) :
    World × Bool :=
  if command = "/start" then
    let r := sendO ora
      (.send u.chatID
        "Greetings 👋\nWith my help, you can leave a \"⭐Review\" \nor ask a \"❓Question\""
        (.reply (buttons UserMain))) w
    if r.2 then
      let r2 := changeUserState SMain u r.1.store
      ({ r.1 with store := r2.2 }, true)
    else (r.1, false)
  else (w, true)

/-- responserCommandEmployee: reply to the /start command of an employee. -/
def responserCommandEmployee (ora : Nat → Bool) (command : String) (u : User) (w : World) :
    World × Bool :=
  if command = "/start" then
    let r := sendO ora
      (.send u.chatID
        "Greetings 👋\nI implement customer feedback\no receive questions click\n\"❓Receive questions\""
        (.reply (buttons EmplMain))) w
    if r.2 then
      let r2 := changeUserState SMain u r.1.store
      ({ r.1 with store := r2.2 }, true)
    else (r.1, false)
  else (w, true)

/-- responserCommand dispatches on the employee flag. -/
def responserCommand (ora : Nat → Bool) (command : String) (u : User) (w : World) :
    World × Bool :=
  if u.isEmployee then responserCommandEmployee ora command u w
  else responserCommandUser ora command u w

/-- responserUser: the prompt/menu presented to a customer in their
current state. -/
def responserUser (ora : Nat → Bool) (u : User) (w : World) : World × Bool :=
  if u.state = SMain then
    sendO ora (.send u.chatID "If you have any questions or review, I'm listening carefully"
      (.reply (buttons UserMain))) w
  else if u.state = SReview then
    sendO ora (.send u.chatID "Please rate from 1 to 5" (.reply (buttons UserStars))) w
  else if u.state = SReviewText then
    sendO ora (.send u.chatID
      "Thank you for your review\nYou can also leave a comment\nOr press \"❌Close\""
      (.reply (buttons UserClose))) w
  else if u.state = SQuestion then
    sendO ora (.send u.chatID "Please ask your question\nOr click \"❌Close\""
      (.reply (buttons UserClose))) w
  else if u.state = SQuestionDiscussion then
    match getOpenQuestionByUser u w.store with
    | none => sendO ora (.send u.chatID "Please reopen the question" .plain) w
    | some q =>
      sendO ora (.send u.chatID
        ("Your question #" ++ toString q.id ++
          "\nThank you for your question\nAn available employee will answer you shortly")
        .plain) w
  else (w, true)

/-- responserEmployee: the prompt/menu presented to an employee in their
current state (SQuestion and SSwitchReceiver also write state/flags). -/
def responserEmployee (ora : Nat → Bool) (u : User) (w : World) : World × Bool :=
  if u.state = SMain then
    let mk := if u.isReceiver then buttons EmplMainR else buttons EmplMain
    sendO ora (.send u.chatID "Choose an action" (.reply mk)) w
  else if u.state = SReview then
    sendO ora (.send u.chatID "Select Interval" (.reply (buttons EmplReview))) w
  else if u.state = SQuestion then
    let r := sendO ora (.send u.chatID "No questions" .plain) w
    if r.2 then
      let r2 := changeUserState SMain u r.1.store
      ({ r.1 with store := r2.2 }, true)
    else (r.1, false)
  else if u.state = SQuestionDiscussion then
    sendO ora (.send u.chatID "You have entered a chat with a user"
      (.reply (buttons EmplExit))) w
  else if u.state = SSwitchReceiver then
    let r1 := changeUserState SMain u w.store
    let u1 := r1.1
    let w1 := { w with store := r1.2 }
    if u1.isReceiver then
      let r2 := changeUserIsReceiver false u1 w1.store
      sendO ora (.send u1.chatID "You no longer receive questions"
        (.reply (buttons EmplMain))) { w1 with store := r2.2 }
    else
      let r2 := changeUserIsReceiver true u1 w1.store
      sendO ora (.send u1.chatID "Now You receive questions"
        (.reply (buttons EmplMainR))) { w1 with store := r2.2 }
  else if u.state = SSearchQuestion then
    sendO ora (.send u.chatID "Enter question number" (.reply (buttons EmplExit))) w
  else (w, true)

/-- responser dispatches on the employee flag. -/
def responser (ora : Nat → Bool) (u : User) (w : World) : World × Bool :=
  if u.isEmployee then responserEmployee ora u w else responserUser ora u w

/-- The claim-offer message for one question: text plus the single-button
inline claim control whose callback data is "1-" followed by the id. -/
def offerOut (toChat : Int) (q : Question) : Out :=
  .send toChat ("Question #" ++ toString q.id ++ "\n" ++ q.header)
    (.inlineBtn "Take question" ("1-" ++ toString q.id))

/-- sendQuestions: deliver a claim-offer for each question to one chat,
stopping at the first delivery failure. -/
def sendQuestions (ora : Nat → Bool) (toChat : Int) :
    List Question → World → World × Bool
  | [], w => (w, true)
  | q :: rest, w =>
    let r := sendO ora (offerOut toChat q) w
    if r.2 then sendQuestions ora toChat rest r.1 else (r.1, false)

/-- sendCorrespondenceFromUser: forward the asker's message to the
answerer's chat (origin preserved). -/
def sendCorrespondenceFromUser (ora : Nat → Bool) (q : Question) (messageId : Nat)
    (w : World) : World × Bool :=
  sendO ora (.forward (chatOfUserId q.answererID w.store) (chatOfUserId q.userID w.store)
    messageId) w

/-- sendCorrespondenceFromAnswerer: copy the answerer's message to the
asker's chat (origin not preserved). -/
def sendCorrespondenceFromAnswerer (ora : Nat → Bool) (q : Question) (messageId : Nat)
    (w : World) : World × Bool :=
  sendO ora (.copyMsg (chatOfUserId q.userID w.store) (chatOfUserId q.answererID w.store)
    messageId) w

/-! ## Correspondence replay and lookups (loader.go side of the bot package) -/

/-- The forward operation re-delivering one correspondence entry to `toChat`:
the source chat is the original sender's current chat id (preloaded User). -/
def replayOut (toChat : Int) (s : Store) (c : QuestionCorrespondence) : Out :=
  .forward toChat (chatOfUserId c.userID s) c.messageID

/-- The replay loop: forward entries in order, aborting at the first
delivery failure (already delivered entries stay delivered). -/
def replayLoop (ora : Nat → Bool) (toChat : Int) (s : Store) :
    List QuestionCorrespondence → World → World × Bool
  | [], w => (w, true)
  | c :: rest, w =>
    let r := sendO ora (replayOut toChat s c) w
    if r.2 then replayLoop ora toChat s rest r.1 else (r.1, false)

/-- loadCorrespondence: the claim operation.  Re-fetch the question
filtered to unclaimed/unanswered/unclosed; on a miss send the
"already taken" notice (and return the send's status); on a hit assign
the claiming employee as answerer and replay the thread to them. -/
def loadCorrespondence (ora : Nat → Bool) (i : Int) (u : User) (w : World) : World × Bool :=
  match getNewQuestionById i w.store with
  | none => sendO ora (.send u.chatID "Question already taken" .plain) w
  | some q =>
    let r := changeQuestionAnswerer u.id q w.store
    let w1 := { w with store := r.2 }
    replayLoop ora u.chatID w1.store (getCorrespondenceByQuestion r.1 w1.store) w1

/-- ratingInStars renders a rating as a run of star characters. -/
def ratingInStars (rating : Nat) : String :=
  String.join (List.replicate rating "⭐")

/-- loadReviews: send the rating histogram (RAll) or the reviews of the
last day/week/month; send errors are ignored.  Time is modelled in days:
`fDate` is the start of tomorrow, a month is abstracted to 30 days. -/
def loadReviews (ora : Nat → Bool) (now : Nat) (interval : Nat) (u : User) (w : World) :
    World :=
  let fDate := now + 1
  if interval = RAll then
    let text := ((getCountReviewsByRating w.store).enum.map
      (fun p => ratingInStars (p.1 + 1) ++ " - " ++ toString p.2 ++ "\n")).foldl
      (fun a b => a ++ b) ""
    (sendO ora (.send u.chatID text .plain) w).1
  else
    let sDate := if interval = RDay then fDate - 1
      else if interval = RWeek then fDate - 7
      else if interval = RMonth then fDate - 30
      else 0
    let reviews := getReviewsInRange fDate sDate w.store
    if reviews.isEmpty then w
    else reviews.foldl
      (fun acc r =>
        (sendO ora (.send u.chatID (ratingInStars r.rating ++ "\n" ++ r.text) .plain) acc).1)
      w

/-- Go's strconv.Atoi: an optional sign followed by at least one digit. -/
def goAtoi (str : String) : Option Int :=
  let core := fun (ds : List Char) =>
    if ds.isEmpty then none
    else if ds.all (fun c => c.isDigit) then
      some (ds.foldl (fun a c => a * 10 + (c.toNat - 48)) 0)
    else none
  match str.toList with
  | '+' :: rest => (core rest).map Int.ofNat
  | '-' :: rest => (core rest).map (fun n => -(n : Int))
  | l => (core l).map Int.ofNat

/-- loadFullQuestionById: parse the text as a question id, look the
question up without any openness filter, send its header, and replay the
thread; all errors only stop the remaining sends. -/
def loadFullQuestionById (ora : Nat → Bool) (idStr : String) (u : User) (w : World) : World :=
  match goAtoi idStr with
  | none => (sendO ora (.send u.chatID "Wrong format" .plain) w).1
  | some i =>
    match getQuestionById i w.store with
    | none => (sendO ora (.send u.chatID "Question not found" .plain) w).1
    | some q =>
      let r := sendO ora (.send u.chatID q.header .plain) w
      (replayLoop ora u.chatID r.1.store (getCorrespondenceByQuestion q r.1.store) r.1).1

/-! ## Inbound events -/

/-- An inbound text message. -/
structure Msg where
  fromID : Int
  fromUserName : String
  messageID : Nat
  text : String
deriving DecidableEq, Repr

/-- An inbound button-press payload (chat id of the chat holding the
button, plus the callback data string). -/
structure Cb where
  chatID : Int
  data : String
deriving DecidableEq, Repr

/-- An inbound update: identifier plus optional message and callback. -/
structure Update where
  updateID : Nat
  message : Option Msg
  callback : Option Cb
deriving DecidableEq, Repr

/-- Structural split on the '-' separator, with the semantics of Go's
strings.Split (and of String.splitOn) for a one-character separator. -/
def splitDash : List Char → List (List Char)
  | [] => [[]]
  | ch :: rest =>
    if ch = '-' then [] :: splitDash rest
    else
      match splitDash rest with
      | [] => [[ch]]
      | x :: xs => (ch :: x) :: xs

/-- Go's strings.Split(s, "-"). -/
def goSplit (s : String) : List String :=
  (splitDash s.toList).map (fun cs => String.mk cs)

/-- splitCallbackData: split the data on "-"; a non-numeric key yields
(0, ""), a missing payload yields an empty payload. -/
def splitCallbackData (data : String) : Int × String :=
  let parts := goSplit data
  match goAtoi (parts.headD "") with
  | none => (0, "")
  | some key => (key, (parts.drop 1).headD "")

/-- parseReview: map a rating token to its value (unrecognized tokens
leave the Go zero value). -/
def parseRating (rating : String) : Nat :=
  if rating = "⭐" || rating = "1" then 1
  else if rating = "⭐⭐" || rating = "2" then 2
  else if rating = "⭐⭐⭐" || rating = "3" then 3
  else if rating = "⭐⭐⭐⭐" || rating = "4" then 4
  else if rating = "⭐⭐⭐⭐⭐" || rating = "5" then 5
  else 0

/-- parseReview's store effect: save a review with the parsed rating,
empty text, owned by the sender. -/
def parseReviewOp (now : Nat) (rating : String) (u : User) (s : Store) : Store :=
  (saveReview
    { id := 0, createdAt := now, rating := parseRating rating, text := "", userID := u.id } s).2

/-! ## Update dispatcher (parsers.go) -/

/-- The rating tokens accepted in the Review state. -/
def isRatingToken (t : String) : Bool :=
  t = "⭐" || t = "⭐⭐" || t = "⭐⭐⭐" || t = "⭐⭐⭐⭐" || t = "⭐⭐⭐⭐⭐" ||
  t = "1" || t = "2" || t = "3" || t = "4" || t = "5"

/-- The Go check question.Answerer.ID != 0 on the preloaded answerer
association (the zero User when no user row matches AnswererID). -/
def answererPresent (q : Question) (s : Store) : Bool :=
  (((getUserById q.answererID s).map (fun v => v.id)).getD 0) ≠ 0

/-- Fan a newly created question out to a list of receivers, one
claim-offer each; delivery errors are ignored per receiver. -/
def fanOut (ora : Nat → Bool) (q : Question) : List User → World → World
  | [], w => w
  | v :: rest, w => fanOut ora q rest (sendQuestions ora v.chatID [q] w).1

/-- The rollback pattern of parsers.go: show the prompt for the (already
written) new state, and on a delivery failure restore the previous state. -/
def withRollback (ora : Nat → Bool) (prev : Nat) (u1 : User) (w : World) : World × Bool :=
  let rr := responser ora u1 w
  if rr.2 then (rr.1, true)
  else ({ rr.1 with store := (changeUserState prev u1 rr.1.store).2 }, false)

/-- Customer in Main: the two recognized menu texts; anything else is
silently ignored. -/
def cuMain (ora : Nat → Bool) (u : User) (m : Msg) (w : World) : World × Bool :=
  if m.text = "⭐Review" then
    let r1 := changeUserState SReview u w.store
    withRollback ora SMain r1.1 { w with store := r1.2 }
  else if m.text = "❓Question" then
    let r1 := changeUserState SQuestion u w.store
    withRollback ora SMain r1.1 { w with store := r1.2 }
  else (w, true)

/-- Customer in Review: a rating token creates the pending review. -/
def cuReview (ora : Nat → Bool) (now : Nat) (u : User) (m : Msg) (w : World) : World × Bool :=
  if isRatingToken m.text then
    let s1 := parseReviewOp now m.text u w.store
    let r1 := changeUserState SReviewText u s1
    withRollback ora SReview r1.1 { w with store := r1.2 }
  else (w, true)

/-- Customer in ReviewText: any text (the close button writes "-") fills
the pending review's comment. -/
def cuReviewText (ora : Nat → Bool) (u : User) (m : Msg) (w : World) : World × Bool :=
  let s1 := changeTextReviewByUser (if m.text = "❌Close" then "-" else m.text) u w.store
  let r1 := changeUserState SMain u s1
  withRollback ora SReviewText r1.1 { w with store := r1.2 }

/-- Customer in Question: close aborts; any other text creates a question
and fans it out to the receivers (per-receiver send errors are ignored). -/
def cuQuestion (ora : Nat → Bool) (u : User) (m : Msg) (w : World) : World × Bool :=
  if m.text = "❌Close" then
    let r1 := changeUserState SMain u w.store
    withRollback ora SQuestion r1.1 { w with store := r1.2 }
  else
    let rq := addQuestion m.text u w.store
    let w1 := fanOut ora rq.1 (getReceivers rq.2) { w with store := rq.2 }
    let r1 := changeUserState SQuestionDiscussion u w1.store
    withRollback ora SQuestion r1.1 { w1 with store := r1.2 }

/-- The close sub-step of a customer in QuestionDiscussion: append the
closing entry, close the question, and forward the closing message to the
answerer when assigned. -/
def cuDiscussionClose (ora : Nat → Bool) (u1 : User) (mid : Nat) (w1 : World) : World × Bool :=
  match getOpenQuestionByUser u1 w1.store with
  | none => (w1, true)
  | some q =>
    let s2 := (addCorrespondence u1 mid w1.store).2
    let s3 := (changeQuestionIsClosed true q s2).2
    let w2 : World := { w1 with store := s3 }
    if answererPresent q w2.store then sendCorrespondenceFromUser ora q mid w2
    else (w2, true)

/-- Customer in QuestionDiscussion. -/
def cuDiscussion (ora : Nat → Bool) (u : User) (m : Msg) (w : World) : World × Bool :=
  if m.text = "❌Close" then
    let r1 := changeUserState SMain u w.store
    let wq := cuDiscussionClose ora r1.1 m.messageID { w with store := r1.2 }
    if wq.2 then withRollback ora SQuestionDiscussion r1.1 wq.1
    else (wq.1, false)
  else
    match getOpenQuestionByUser u w.store with
    | none => (w, true)
    | some q =>
      let ws : World × Bool :=
        if answererPresent q w.store then sendCorrespondenceFromUser ora q m.messageID w
        else (w, true)
      if ws.2 then
        let s1 := (changeQuestionHaveAnswer false q ws.1.store).2
        let s2 := (addCorrespondence u m.messageID s1).2
        ({ ws.1 with store := s2 }, true)
      else (ws.1, false)

/-- parseMessageUser: the customer side of the state machine. -/
def parseMessageUser (ora : Nat → Bool) (now : Nat) (u : User) (m : Msg) (w : World) :
    World × Bool :=
  if u.state = SNew then
    ({ w with store := (changeUserState SMain u w.store).2 }, true)
  else if u.state = SMain then cuMain ora u m w
  else if u.state = SReview then cuReview ora now u m w
  else if u.state = SReviewText then cuReviewText ora u m w
  else if u.state = SQuestion then cuQuestion ora u m w
  else if u.state = SQuestionDiscussion then cuDiscussion ora u m w
  else (w, true)

/-- Employee in Main: the four recognized menu texts. -/
def emMain (ora : Nat → Bool) (u : User) (m : Msg) (w : World) : World × Bool :=
  if m.text = "❓Receive questions" || m.text = "❓Do not receive questions" then
    let r1 := changeUserState SSwitchReceiver u w.store
    responser ora r1.1 { w with store := r1.2 }
  else if m.text = "❓Open questions" then
    let qs := getNewQuestions w.store
    if qs.isEmpty then
      let r1 := changeUserState SQuestion u w.store
      responser ora r1.1 { w with store := r1.2 }
    else ((sendQuestions ora u.chatID qs w).1, true)
  else if m.text = "⭐Reviews" then
    let r1 := changeUserState SReview u w.store
    withRollback ora SMain r1.1 { w with store := r1.2 }
  else if m.text = "❓Find a question" then
    let r1 := changeUserState SSearchQuestion u w.store
    withRollback ora SMain r1.1 { w with store := r1.2 }
  else (w, true)

/-- Employee in Review: the interval buttons list reviews; Back returns to
Main (with the code's rollback-to-QuestionDiscussion slip on failure). -/
def emReview (ora : Nat → Bool) (now : Nat) (u : User) (m : Msg) (w : World) : World × Bool :=
  if m.text = "📅For a day" then (loadReviews ora now RDay u w, true)
  else if m.text = "📅For a week" then (loadReviews ora now RWeek u w, true)
  else if m.text = "📅For a month" then (loadReviews ora now RMonth u w, true)
  else if m.text = "📅All (no text)" then (loadReviews ora now RAll u w, true)
  else if m.text = "↩️Back" then
    let r1 := changeUserState SMain u w.store
    withRollback ora SQuestionDiscussion r1.1 { w with store := r1.2 }
  else (w, true)

/-- Employee in QuestionDiscussion: Back releases the claim; other text is
copied to the asker, marks the question answered, and appends an entry. -/
def emDiscussion (ora : Nat → Bool) (u : User) (m : Msg) (w : World) : World × Bool :=
  if m.text = "↩️Back" then
    let r1 := changeUserState SMain u w.store
    let s2 := match getOpenQuestionByAnswerer r1.1 r1.2 with
      | none => r1.2
      | some q => (changeQuestionAnswerer 0 q r1.2).2
    withRollback ora SQuestionDiscussion r1.1 { w with store := s2 }
  else
    match getOpenQuestionByAnswerer u w.store with
    | none => (w, true)
    | some q =>
      let rs := sendCorrespondenceFromAnswerer ora q m.messageID w
      if rs.2 then
        let s1 := (changeQuestionHaveAnswer true q rs.1.store).2
        let s2 := (addCorrespondence u m.messageID s1).2
        ({ rs.1 with store := s2 }, true)
      else (rs.1, false)

/-- Employee in SearchQuestion: Back returns to Main; anything else is a
question-id lookup with replay. -/
def emSearch (ora : Nat → Bool) (u : User) (m : Msg) (w : World) : World × Bool :=
  if m.text = "↩️Back" then
    let r1 := changeUserState SMain u w.store
    withRollback ora SSearchQuestion r1.1 { w with store := r1.2 }
  else (loadFullQuestionById ora m.text u w, true)

/-- parseMessageEmployee: the employee side of the state machine. -/
def parseMessageEmployee (ora : Nat → Bool) (now : Nat) (u : User) (m : Msg) (w : World) :
    World × Bool :=
  if u.state = SNew then
    ({ w with store := (changeUserState SMain u w.store).2 }, true)
  else if u.state = SMain then emMain ora u m w
  else if u.state = SReview then emReview ora now u m w
  else if u.state = SQuestionDiscussion then emDiscussion ora u m w
  else if u.state = SSearchQuestion then emSearch ora u m w
  else (w, true)

/-- parseCommand: handle /start — upsert the sender (resetting IsReceiver),
close their open question if any, and greet.  Returns (isCommand, world,
success). -/
def parseCommand (ora : Nat → Bool) (m : Msg) (w : World) : Bool × World × Bool :=
  if m.text = "/start" then
    let r1 := addUser m.fromID m.fromUserName SNew w.store
    let s2 := match getOpenQuestionByUser r1.1 r1.2 with
      | none => r1.2
      | some q => (changeQuestionIsClosed true q r1.2).2
    let rr := responserCommand ora m.text r1.1 { w with store := s2 }
    (true, rr.1, rr.2)
  else (false, w, true)

/-- parseMessage: commands first, then lookup of the sender and dispatch
by the employee flag; an unknown sender is an error. -/
def parseMessage (ora : Nat → Bool) (now : Nat) (m : Msg) (w : World) : World × Bool :=
  let rc := parseCommand ora m w
  if rc.1 then (rc.2.1, rc.2.2)
  else
    match getUserByChatID m.fromID w.store with
    | none => (w, false)
    | some u =>
      if u.isEmployee then parseMessageEmployee ora now u m w
      else parseMessageUser ora now u m w

/-- parseCallbackUser (unused in the Go source: customers have no inline
buttons). -/
def parseCallbackUser (_u : User) (_cb : Cb) (w : World) : World × Bool :=
  (w, true)

/-- The claim handler: parse the question id, run loadCorrespondence, and
when it reports success enter QuestionDiscussion. -/
def emClaim (ora : Nat → Bool) (u : User) (data : String) (w : World) : World × Bool :=
  match goAtoi data with
  | none => (w, false)
  | some i =>
    let rl := loadCorrespondence ora i u w
    if rl.2 then
      let r1 := changeUserState SQuestionDiscussion u rl.1.store
      withRollback ora SMain r1.1 { rl.1 with store := r1.2 }
    else (rl.1, false)

/-- parseCallbackEmployee: the claim button.  Only handled in the Main
state; elsewhere the callback falls through to the default branch. -/
def parseCallbackEmployee (ora : Nat → Bool) (u : User) (cb : Cb) (w : World) : World × Bool :=
  let kd := splitCallbackData cb.data
  if u.state = SMain then
    if kd.1 = CBQuestion then emClaim ora u kd.2 w
    else (w, true)
  else (w, true)

/-- parseCallback: lookup of the sender and dispatch by the employee flag. -/
def parseCallback (ora : Nat → Bool) (cb : Cb) (w : World) : World × Bool :=
  match getUserByChatID cb.chatID w.store with
  | none => (w, false)
  | some u =>
    if u.isEmployee then parseCallbackEmployee ora u cb w
    else parseCallbackUser u cb w

/-- parseUpdate: process the message part then the callback part; when the
last processed part succeeded, persist offset := updateID + 1. -/
def parseUpdate (ora : Nat → Bool) (now : Nat) (up : Update) (w : World) : World × Bool :=
  let r1 := match up.message with
    | some m => parseMessage ora now m w
    | none => (w, true)
  let r2 := match up.callback with
    | some cb => parseCallback ora cb r1.1
    | none => r1
  if r2.2 then ({ r2.1 with offset := up.updateID + 1 }, true)
  else (r2.1, false)

/-- The batch loop of RunFetcher: process updates in order, stopping at
the first error. -/
def processBatch (ora : Nat → Bool) (now : Nat) : List Update → World → World × Bool
  | [], w => (w, true)
  | up :: rest, w =>
    let r := parseUpdate ora now up w
    if r.2 then processBatch ora now rest r.1 else (r.1, false)

/-- The empty initial store (auto-increment counters start at 1). -/
def emptyStore : Store :=
  { users := [], reviews := [], questions := [], corrs := [],
    nextUserId := 1, nextReviewId := 1, nextQuestionId := 1, nextCorrId := 1 }

/-- The initial world. -/
def W0 : World := { store := emptyStore, offset := 0, outs := [], tick := 0 }

/-- The oracle under which every gateway delivery succeeds. -/
def allOk : Nat → Bool := fun _ => true

/-- Worlds reachable from the initial world by dispatch steps under
arbitrary delivery oracles. -/
inductive Reachable : World → Prop
  | init : Reachable W0
  | step (ora : Nat → Bool) (now : Nat) (up : Update) {w : World} :
      Reachable w → Reachable (parseUpdate ora now up w).1

/-- Worlds reachable from the initial world by dispatch steps on which
every gateway delivery succeeds. -/
inductive ReachableOk : World → Prop
  | init : ReachableOk W0
  | step (now : Nat) (up : Update) {w : World} :
      ReachableOk w → ReachableOk (parseUpdate allOk now up w).1

/-! ## Basic lemmas about store operations -/

theorem saveUser_questions (u : User) (s : Store) : (saveUser u s).2.questions = s.questions := by
  unfold saveUser; split <;> rfl

theorem saveUser_outside (u : User) (s : Store) :
    (saveUser u s).2.questions = s.questions ∧ (saveUser u s).2.reviews = s.reviews ∧
    (saveUser u s).2.corrs = s.corrs := by
  unfold saveUser; split <;> exact ⟨rfl, rfl, rfl⟩

theorem saveQuestion_users (q : Question) (s : Store) : (saveQuestion q s).2.users = s.users := by
  unfold saveQuestion; split <;> rfl

theorem saveReview_users (r : Review) (s : Store) : (saveReview r s).2.users = s.users := by
  unfold saveReview; split <;> rfl

theorem saveReview_questions (r : Review) (s : Store) :
    (saveReview r s).2.questions = s.questions := by
  unfold saveReview; split <;> rfl

theorem saveCorr_users (c : QuestionCorrespondence) (s : Store) :
    (saveCorr c s).2.users = s.users := by
  unfold saveCorr; split <;> rfl

theorem saveCorr_questions (c : QuestionCorrespondence) (s : Store) :
    (saveCorr c s).2.questions = s.questions := by
  unfold saveCorr; split <;> rfl

theorem saveUser_fst (u : User) (s : Store) (h : u.id ≠ 0) : (saveUser u s).1 = u := by
  unfold saveUser; simp [h]

theorem saveUser_users_ne (u : User) (s : Store) (h : u.id ≠ 0) :
    (saveUser u s).2.users = s.users.map (fun v => if v.id = u.id then u else v) := by
  unfold saveUser; simp [h]

theorem saveQuestion_fst (q : Question) (s : Store) (h : q.id ≠ 0) :
    (saveQuestion q s).1 = q := by
  unfold saveQuestion; simp [h]

theorem saveQuestion_questions_ne (q : Question) (s : Store) (h : q.id ≠ 0) :
    (saveQuestion q s).2.questions = s.questions.map (fun v => if v.id = q.id then q else v) := by
  unfold saveQuestion; simp [h]

theorem changeUserState_fst (st : Nat) (u : User) (s : Store) (h : u.id ≠ 0) :
    (changeUserState st u s).1 = { u with state := st } := by
  unfold changeUserState; exact saveUser_fst _ _ h

theorem changeUserState_questions (st : Nat) (u : User) (s : Store) :
    (changeUserState st u s).2.questions = s.questions :=
  saveUser_questions _ _

theorem addCorrespondence_users (u : User) (mid : Nat) (s : Store) :
    (addCorrespondence u mid s).2.users = s.users := by
  unfold addCorrespondence
  dsimp only
  split <;> simp [saveCorr_users]

theorem addCorrespondence_questions (u : User) (mid : Nat) (s : Store) :
    (addCorrespondence u mid s).2.questions = s.questions := by
  unfold addCorrespondence
  dsimp only
  split <;> simp [saveCorr_questions]

theorem changeTextReviewByUser_users (t : String) (u : User) (s : Store) :
    (changeTextReviewByUser t u s).users = s.users := by
  unfold changeTextReviewByUser
  split <;> simp [saveReview_users]

theorem changeTextReviewByUser_questions (t : String) (u : User) (s : Store) :
    (changeTextReviewByUser t u s).questions = s.questions := by
  unfold changeTextReviewByUser
  split <;> simp [saveReview_questions]

/-! ## Offset invariance: no dispatch component touches the persisted
cursor; only parseUpdate writes it. -/

theorem sendO_offset (ora : Nat → Bool) (o : Out) (w : World) :
    (sendO ora o w).1.offset = w.offset := by
  unfold sendO; split <;> rfl

theorem responserCommandUser_offset (ora : Nat → Bool) (c : String) (u : User) (w : World) :
    (responserCommandUser ora c u w).1.offset = w.offset := by
  unfold responserCommandUser
  dsimp only
  split_ifs <;> simp [sendO_offset]

theorem responserCommandEmployee_offset (ora : Nat → Bool) (c : String) (u : User) (w : World) :
    (responserCommandEmployee ora c u w).1.offset = w.offset := by
  unfold responserCommandEmployee
  dsimp only
  split_ifs <;> simp [sendO_offset]

theorem responserCommand_offset (ora : Nat → Bool) (c : String) (u : User) (w : World) :
    (responserCommand ora c u w).1.offset = w.offset := by
  unfold responserCommand
  split
  · exact responserCommandEmployee_offset _ _ _ _
  · exact responserCommandUser_offset _ _ _ _

theorem responserUser_offset (ora : Nat → Bool) (u : User) (w : World) :
    (responserUser ora u w).1.offset = w.offset := by
  unfold responserUser
  split_ifs <;> first
    | rfl
    | exact sendO_offset _ _ _
    | (split <;> exact sendO_offset _ _ _)

theorem responserEmployee_offset (ora : Nat → Bool) (u : User) (w : World) :
    (responserEmployee ora u w).1.offset = w.offset := by
  unfold responserEmployee
  dsimp only
  split_ifs <;> first
    | rfl
    | exact sendO_offset _ _ _

theorem responser_offset (ora : Nat → Bool) (u : User) (w : World) :
    (responser ora u w).1.offset = w.offset := by
  unfold responser
  split
  · exact responserEmployee_offset _ _ _
  · exact responserUser_offset _ _ _

theorem sendQuestions_offset (ora : Nat → Bool) (c : Int) (qs : List Question) (w : World) :
    (sendQuestions ora c qs w).1.offset = w.offset := by
  induction qs generalizing w with
  | nil => rfl
  | cons q rest ih =>
    unfold sendQuestions
    dsimp only
    split
    · rw [ih]; exact sendO_offset _ _ _
    · exact sendO_offset _ _ _

theorem fanOut_offset (ora : Nat → Bool) (q : Question) (vs : List User) (w : World) :
    (fanOut ora q vs w).offset = w.offset := by
  induction vs generalizing w with
  | nil => rfl
  | cons v rest ih =>
    unfold fanOut
    rw [ih]
    exact sendQuestions_offset _ _ _ _

theorem replayLoop_offset (ora : Nat → Bool) (c : Int) (s : Store)
    (es : List QuestionCorrespondence) (w : World) :
    (replayLoop ora c s es w).1.offset = w.offset := by
  induction es generalizing w with
  | nil => rfl
  | cons e rest ih =>
    unfold replayLoop
    dsimp only
    split
    · rw [ih]; exact sendO_offset _ _ _
    · exact sendO_offset _ _ _

theorem loadCorrespondence_offset (ora : Nat → Bool) (i : Int) (u : User) (w : World) :
    (loadCorrespondence ora i u w).1.offset = w.offset := by
  unfold loadCorrespondence
  dsimp only
  split
  · exact sendO_offset _ _ _
  · exact replayLoop_offset _ _ _ _ _

theorem loadReviews_sends_offset (ora : Nat → Bool) (c : Int) (rs : List Review) (w : World) :
    (rs.foldl (fun acc r =>
      (sendO ora (.send c (ratingInStars r.rating ++ "\n" ++ r.text) .plain) acc).1)
      w).offset = w.offset := by
  induction rs generalizing w with
  | nil => rfl
  | cons r rest ih =>
    rw [List.foldl_cons, ih, sendO_offset]

theorem loadReviews_offset (ora : Nat → Bool) (now interval : Nat) (u : User) (w : World) :
    (loadReviews ora now interval u w).offset = w.offset := by
  unfold loadReviews
  dsimp only
  split_ifs <;> first
    | rfl
    | exact sendO_offset _ _ _
    | exact loadReviews_sends_offset _ _ _ _

theorem loadFullQuestionById_offset (ora : Nat → Bool) (t : String) (u : User) (w : World) :
    (loadFullQuestionById ora t u w).offset = w.offset := by
  unfold loadFullQuestionById
  dsimp only
  split
  · exact sendO_offset _ _ _
  · split
    · exact sendO_offset _ _ _
    · rw [replayLoop_offset]; exact sendO_offset _ _ _

theorem withRollback_offset (ora : Nat → Bool) (prev : Nat) (u1 : User) (w : World) :
    (withRollback ora prev u1 w).1.offset = w.offset := by
  unfold withRollback
  dsimp only
  split <;> simp [responser_offset]

theorem cuMain_offset (ora : Nat → Bool) (u : User) (m : Msg) (w : World) :
    (cuMain ora u m w).1.offset = w.offset := by
  unfold cuMain
  dsimp only
  split_ifs <;> simp [withRollback_offset]

theorem cuReview_offset (ora : Nat → Bool) (now : Nat) (u : User) (m : Msg) (w : World) :
    (cuReview ora now u m w).1.offset = w.offset := by
  unfold cuReview
  dsimp only
  split_ifs <;> simp [withRollback_offset]

theorem cuReviewText_offset (ora : Nat → Bool) (u : User) (m : Msg) (w : World) :
    (cuReviewText ora u m w).1.offset = w.offset := by
  unfold cuReviewText
  dsimp only
  simp [withRollback_offset]

theorem cuQuestion_offset (ora : Nat → Bool) (u : User) (m : Msg) (w : World) :
    (cuQuestion ora u m w).1.offset = w.offset := by
  unfold cuQuestion
  dsimp only
  split_ifs <;> simp [withRollback_offset, fanOut_offset]

theorem sendCorrespondenceFromUser_offset (ora : Nat → Bool) (q : Question) (mid : Nat)
    (w : World) : (sendCorrespondenceFromUser ora q mid w).1.offset = w.offset := by
  unfold sendCorrespondenceFromUser; exact sendO_offset _ _ _

theorem sendCorrespondenceFromAnswerer_offset (ora : Nat → Bool) (q : Question) (mid : Nat)
    (w : World) : (sendCorrespondenceFromAnswerer ora q mid w).1.offset = w.offset := by
  unfold sendCorrespondenceFromAnswerer; exact sendO_offset _ _ _

theorem cuDiscussionClose_offset (ora : Nat → Bool) (u1 : User) (mid : Nat) (w1 : World) :
    (cuDiscussionClose ora u1 mid w1).1.offset = w1.offset := by
  unfold cuDiscussionClose
  dsimp only
  split
  · rfl
  · split
    · simp [sendCorrespondenceFromUser, sendO_offset]
    · rfl

theorem cuDiscussion_offset (ora : Nat → Bool) (u : User) (m : Msg) (w : World) :
    (cuDiscussion ora u m w).1.offset = w.offset := by
  unfold cuDiscussion
  dsimp only
  split
  · split
    · simp [withRollback_offset, cuDiscussionClose_offset]
    · simp [cuDiscussionClose_offset]
  · split
    · rfl
    · split <;>
        first
          | (simp only []
             split <;> simp [sendCorrespondenceFromUser_offset])
          | (split <;> simp [sendCorrespondenceFromUser_offset])

theorem parseMessageUser_offset (ora : Nat → Bool) (now : Nat) (u : User) (m : Msg)
    (w : World) : (parseMessageUser ora now u m w).1.offset = w.offset := by
  unfold parseMessageUser
  split_ifs <;> simp [cuMain_offset, cuReview_offset, cuReviewText_offset,
    cuQuestion_offset, cuDiscussion_offset]

theorem emMain_offset (ora : Nat → Bool) (u : User) (m : Msg) (w : World) :
    (emMain ora u m w).1.offset = w.offset := by
  unfold emMain
  dsimp only
  split_ifs <;> simp [withRollback_offset, responser_offset, sendQuestions_offset]

theorem emReview_offset (ora : Nat → Bool) (now : Nat) (u : User) (m : Msg) (w : World) :
    (emReview ora now u m w).1.offset = w.offset := by
  unfold emReview
  dsimp only
  split_ifs <;> simp [withRollback_offset, loadReviews_offset]

theorem emDiscussion_offset (ora : Nat → Bool) (u : User) (m : Msg) (w : World) :
    (emDiscussion ora u m w).1.offset = w.offset := by
  unfold emDiscussion
  dsimp only
  split_ifs
  · simp [withRollback_offset]
  · split
    · rfl
    · split <;> simp [sendCorrespondenceFromAnswerer, sendO_offset]

theorem emSearch_offset (ora : Nat → Bool) (u : User) (m : Msg) (w : World) :
    (emSearch ora u m w).1.offset = w.offset := by
  unfold emSearch
  dsimp only
  split_ifs <;> simp [withRollback_offset, loadFullQuestionById_offset]

theorem parseMessageEmployee_offset (ora : Nat → Bool) (now : Nat) (u : User) (m : Msg)
    (w : World) : (parseMessageEmployee ora now u m w).1.offset = w.offset := by
  unfold parseMessageEmployee
  split_ifs <;> simp [emMain_offset, emReview_offset, emDiscussion_offset, emSearch_offset]

theorem parseCommand_offset (ora : Nat → Bool) (m : Msg) (w : World) :
    (parseCommand ora m w).2.1.offset = w.offset := by
  unfold parseCommand
  dsimp only
  split_ifs <;> simp [responserCommand_offset]

theorem parseMessage_offset (ora : Nat → Bool) (now : Nat) (m : Msg) (w : World) :
    (parseMessage ora now m w).1.offset = w.offset := by
  unfold parseMessage
  dsimp only
  split
  · exact parseCommand_offset _ _ _
  · split
    · rfl
    · split
      · exact parseMessageEmployee_offset _ _ _ _ _
      · exact parseMessageUser_offset _ _ _ _ _

theorem emClaim_offset (ora : Nat → Bool) (u : User) (d : String) (w : World) :
    (emClaim ora u d w).1.offset = w.offset := by
  unfold emClaim
  dsimp only
  split
  · rfl
  · split <;> simp [withRollback_offset, loadCorrespondence_offset]

theorem parseCallbackEmployee_offset (ora : Nat → Bool) (u : User) (cb : Cb) (w : World) :
    (parseCallbackEmployee ora u cb w).1.offset = w.offset := by
  unfold parseCallbackEmployee
  dsimp only
  split_ifs <;> simp [emClaim_offset]

theorem parseCallback_offset (ora : Nat → Bool) (cb : Cb) (w : World) :
    (parseCallback ora cb w).1.offset = w.offset := by
  unfold parseCallback
  split
  · rfl
  · split
    · exact parseCallbackEmployee_offset _ _ _ _
    · rfl

/-! ## The open-question invariant -/

/-- Two question rows are compatible when they do not witness two open
questions of the same asker. -/
def QOk (q1 q2 : Question) : Prop :=
  q1.userID ≠ q2.userID ∨ q1.isClosed = true ∨ q2.isClosed = true

instance : DecidableRel QOk := fun a b => by unfold QOk; infer_instance

theorem QOk_symm : Symmetric QOk := by
  intro a b h
  unfold QOk at *
  tauto

/-- At most one open (unclosed) question per asker. -/
def atMostOneOpen (s : Store) : Prop := s.questions.Pairwise QOk

instance (s : Store) : Decidable (atMostOneOpen s) := by
  unfold atMostOneOpen; infer_instance

/-- The asker with store id `uid` has no open question. -/
def noOpen (s : Store) (uid : Nat) : Prop :=
  ∀ q ∈ s.questions, q.userID = uid → q.isClosed = true

instance (s : Store) (uid : Nat) : Decidable (noOpen s uid) := by
  unfold noOpen; infer_instance

/-- A customer that is not inside a question discussion has no open
question (the auxiliary clause making the invariant inductive). -/
def custClause (s : Store) : Prop :=
  ∀ u ∈ s.users, u.isEmployee = false → u.state ≠ SQuestionDiscussion → noOpen s u.id

/-- Same as `custClause` but exempting the user records with id `xid`
(the record currently being driven through a transition). -/
def custClauseAt (s : Store) (xid : Nat) : Prop :=
  ∀ u ∈ s.users, u.id ≠ xid → u.isEmployee = false → u.state ≠ SQuestionDiscussion →
    noOpen s u.id

/-- User ids are nonzero and below the auto-increment counter. -/
def uFresh (s : Store) : Prop := ∀ u ∈ s.users, u.id ≠ 0 ∧ u.id < s.nextUserId

/-- Question ids are nonzero and below the auto-increment counter. -/
def qFresh (s : Store) : Prop := ∀ q ∈ s.questions, q.id ≠ 0 ∧ q.id < s.nextQuestionId

/-- Question ids are pairwise distinct. -/
def qNodup (s : Store) : Prop := (s.questions.map (fun q => q.id)).Nodup

/-- Everything of the inductive invariant except the customer clause for
records with id `xid`. -/
def InvAt (s : Store) (xid : Nat) : Prop :=
  atMostOneOpen s ∧ custClauseAt s xid ∧ uFresh s ∧ qFresh s ∧ qNodup s ∧
  s.nextUserId ≠ 0 ∧ s.nextQuestionId ≠ 0

/-- The inductive invariant of the dispatch loop. -/
def Inv (s : Store) : Prop :=
  atMostOneOpen s ∧ custClause s ∧ uFresh s ∧ qFresh s ∧ qNodup s ∧
  s.nextUserId ≠ 0 ∧ s.nextQuestionId ≠ 0

instance (s : Store) (xid : Nat) : Decidable (InvAt s xid) := by
  unfold InvAt custClauseAt atMostOneOpen uFresh qFresh qNodup; infer_instance

instance (s : Store) : Decidable (Inv s) := by
  unfold Inv custClause atMostOneOpen uFresh qFresh qNodup; infer_instance

theorem invAt_of_inv {s : Store} (xid : Nat) (h : Inv s) : InvAt s xid := by
  obtain ⟨h1, h2, h3, h4, h5, h6, h7⟩ := h
  exact ⟨h1, fun u hu _ => h2 u hu, h3, h4, h5, h6, h7⟩

/-! ### List-level lemmas about the question operations -/

/-- The replacement function of an UPDATE by primary key. -/
def replaceById (i : Nat) (q' : Question) (v : Question) : Question :=
  if v.id = i then q' else v

theorem replaceById_id (i : Nat) (q' : Question) (h : q'.id = i) (v : Question) :
    (replaceById i q' v).id = v.id := by
  unfold replaceById
  split <;> simp_all

/-- Closing a question row preserves pairwise compatibility. -/
theorem pairwise_close (l : List Question) (q : Question)
    (hP : l.Pairwise QOk) :
    (l.map (replaceById q.id { q with isClosed := true })).Pairwise QOk := by
  refine List.Pairwise.map _ (fun a b hab => ?_) hP
  unfold replaceById QOk at *
  by_cases ha : a.id = q.id <;> by_cases hb : b.id = q.id <;> simp [ha, hb]
  tauto

/-- Closing a question row preserves `noOpen`. -/
theorem noOpen_close (l : List Question) (q : Question) (uid : Nat)
    (h : ∀ v ∈ l, v.userID = uid → v.isClosed = true) :
    ∀ v ∈ l.map (replaceById q.id { q with isClosed := true }), v.userID = uid →
      v.isClosed = true := by
  intro v hv huid
  rcases List.mem_map.mp hv with ⟨v0, hv0, rfl⟩
  by_cases hcs : v0.id = q.id
  · simp [replaceById, hcs]
  · simp only [replaceById, hcs, if_false] at huid ⊢
    exact h v0 hv0 huid

/-- After closing the (unique) open question of an asker, the asker has no
open question left. -/
theorem noOpen_after_close (l : List Question) (q : Question) (uid : Nat)
    (hP : l.Pairwise QOk) (hq : q ∈ l) (huid : q.userID = uid) (hopen : q.isClosed = false) :
    ∀ v ∈ l.map (replaceById q.id { q with isClosed := true }), v.userID = uid →
      v.isClosed = true := by
  intro v hv hvuid
  rcases List.mem_map.mp hv with ⟨v0, hv0, rfl⟩
  by_cases hne : v0.id = q.id
  · simp [replaceById, hne]
  · simp only [replaceById, hne, if_false] at hvuid ⊢
    by_contra hopen0
    have hvq : v0 ≠ q := fun he => hne (by rw [he])
    have hQ := hP.forall QOk_symm hv0 hq hvq
    unfold QOk at hQ
    rcases hQ with h1 | h1 | h1
    · exact h1 (by rw [hvuid, huid])
    · exact hopen0 h1
    · simp [hopen] at h1

/-- Replacing a row by an update that keeps id, asker and closed flag
preserves pairwise compatibility (ids must be distinct so that the saved
record only stands for the row it was fetched from). -/
theorem pairwise_update (l : List Question) (q q' : Question)
    (hP : l.Pairwise QOk) (hnd : (l.map (fun v => v.id)).Nodup) (hq : q ∈ l)
    (hu : q'.userID = q.userID) (hc : q'.isClosed = q.isClosed) :
    (l.map (replaceById q.id q')).Pairwise QOk := by
  rw [List.pairwise_map]
  refine hP.imp_of_mem ?_
  intro a b ha hb hab
  by_cases h1 : a.id = q.id <;> by_cases h2 : b.id = q.id <;>
    simp only [replaceById, h1, h2, if_true, if_false]
  · have ha' : a = q := List.inj_on_of_nodup_map hnd ha hq h1
    have hb' : b = q := List.inj_on_of_nodup_map hnd hb hq h2
    subst ha'
    subst hb'
    unfold QOk at hab ⊢
    rcases hab with h | h | h <;> simp_all
  · have ha' : a = q := List.inj_on_of_nodup_map hnd ha hq h1
    subst ha'
    unfold QOk at hab ⊢
    rw [hu, hc]
    exact hab
  · have hb' : b = q := List.inj_on_of_nodup_map hnd hb hq h2
    subst hb'
    unfold QOk at hab ⊢
    rw [hu, hc]
    exact hab
  · exact hab

/-- Replacing a row by an update that keeps asker and closed flag
preserves `noOpen` (ids must be distinct). -/
theorem noOpen_update (l : List Question) (q q' : Question) (uid : Nat)
    (hnd : (l.map (fun v => v.id)).Nodup) (hq : q ∈ l)
    (hu : q'.userID = q.userID) (hc : q'.isClosed = q.isClosed)
    (h : ∀ v ∈ l, v.userID = uid → v.isClosed = true) :
    ∀ v ∈ l.map (replaceById q.id q'), v.userID = uid → v.isClosed = true := by
  intro v hv hvuid
  rcases List.mem_map.mp hv with ⟨v0, hv0, rfl⟩
  by_cases h1 : v0.id = q.id
  · have hv0' : v0 = q := List.inj_on_of_nodup_map hnd hv0 hq h1
    subst hv0'
    simp only [replaceById, h1, if_true] at hvuid ⊢
    rw [hc]
    exact h v0 hv0 (by rw [← hu]; exact hvuid)
  · simp only [replaceById, h1, if_false] at hvuid ⊢
    exact h v0 hv0 hvuid

/-- Appending a fresh open question of an asker with no open question
preserves pairwise compatibility. -/
theorem pairwise_append_new (l : List Question) (nq : Question)
    (hP : l.Pairwise QOk) (hno : ∀ v ∈ l, v.userID = nq.userID → v.isClosed = true) :
    (l ++ [nq]).Pairwise QOk := by
  rw [List.pairwise_append]
  refine ⟨hP, by simp, ?_⟩
  intro a ha b hb
  rcases List.mem_singleton.mp hb with rfl
  unfold QOk
  by_cases h : a.userID = b.userID
  · exact Or.inr (Or.inl (hno a ha h))
  · exact Or.inl h

/-! ### Gateway calls do not touch the store -/

theorem sendO_store (ora : Nat → Bool) (o : Out) (w : World) :
    (sendO ora o w).1.store = w.store := by
  unfold sendO; split <;> rfl

theorem sendQuestions_store (ora : Nat → Bool) (c : Int) (qs : List Question) (w : World) :
    (sendQuestions ora c qs w).1.store = w.store := by
  induction qs generalizing w with
  | nil => rfl
  | cons q rest ih =>
    unfold sendQuestions
    dsimp only
    split
    · rw [ih]; exact sendO_store _ _ _
    · exact sendO_store _ _ _

theorem fanOut_store (ora : Nat → Bool) (q : Question) (vs : List User) (w : World) :
    (fanOut ora q vs w).store = w.store := by
  induction vs generalizing w with
  | nil => rfl
  | cons v rest ih =>
    unfold fanOut
    rw [ih]
    exact sendQuestions_store _ _ _ _

theorem replayLoop_store (ora : Nat → Bool) (c : Int) (s : Store)
    (es : List QuestionCorrespondence) (w : World) :
    (replayLoop ora c s es w).1.store = w.store := by
  induction es generalizing w with
  | nil => rfl
  | cons e rest ih =>
    unfold replayLoop
    dsimp only
    split
    · rw [ih]; exact sendO_store _ _ _
    · exact sendO_store _ _ _

theorem responserUser_store (ora : Nat → Bool) (u : User) (w : World) :
    (responserUser ora u w).1.store = w.store := by
  unfold responserUser
  split_ifs <;> first
    | rfl
    | exact sendO_store _ _ _
    | (split <;> exact sendO_store _ _ _)

theorem loadReviews_sends_store (ora : Nat → Bool) (c : Int) (rs : List Review) (w : World) :
    (rs.foldl (fun acc r =>
      (sendO ora (.send c (ratingInStars r.rating ++ "\n" ++ r.text) .plain) acc).1)
      w).store = w.store := by
  induction rs generalizing w with
  | nil => rfl
  | cons r rest ih =>
    rw [List.foldl_cons, ih, sendO_store]

theorem loadReviews_store (ora : Nat → Bool) (now interval : Nat) (u : User) (w : World) :
    (loadReviews ora now interval u w).store = w.store := by
  unfold loadReviews
  dsimp only
  split_ifs <;> first
    | rfl
    | exact sendO_store _ _ _
    | exact loadReviews_sends_store _ _ _ _

theorem loadFullQuestionById_store (ora : Nat → Bool) (t : String) (u : User) (w : World) :
    (loadFullQuestionById ora t u w).store = w.store := by
  unfold loadFullQuestionById
  dsimp only
  split
  · exact sendO_store _ _ _
  · split
    · exact sendO_store _ _ _
    · rw [replayLoop_store]; exact sendO_store _ _ _

/-! ### Under the all-success oracle every gateway call succeeds -/

theorem sendO_allOk_snd (o : Out) (w : World) : (sendO allOk o w).2 = true := rfl

theorem responserUser_allOk_snd (u : User) (w : World) :
    (responserUser allOk u w).2 = true := by
  unfold responserUser
  split_ifs <;> first | rfl | (split <;> rfl)

theorem responserEmployee_allOk_snd (u : User) (w : World) :
    (responserEmployee allOk u w).2 = true := by
  unfold responserEmployee
  dsimp only
  split_ifs <;> first | rfl | simp_all [sendO, allOk]

theorem responser_allOk_snd (u : User) (w : World) : (responser allOk u w).2 = true := by
  unfold responser
  split
  · exact responserEmployee_allOk_snd _ _
  · exact responserUser_allOk_snd _ _

theorem withRollback_allOk (prev : Nat) (u1 : User) (w : World) :
    withRollback allOk prev u1 w = ((responser allOk u1 w).1, true) := by
  unfold withRollback
  dsimp only
  rw [responser_allOk_snd]
  simp

theorem replayLoop_allOk_snd (c : Int) (s : Store) (es : List QuestionCorrespondence)
    (w : World) : (replayLoop allOk c s es w).2 = true := by
  induction es generalizing w with
  | nil => rfl
  | cons e rest ih =>
    unfold replayLoop
    dsimp only
    rw [sendO_allOk_snd]
    simp only [eq_self_iff_true, if_true]
    exact ih _

theorem loadCorrespondence_allOk_snd (i : Int) (u : User) (w : World) :
    (loadCorrespondence allOk i u w).2 = true := by
  unfold loadCorrespondence
  dsimp only
  split
  · rfl
  · exact replayLoop_allOk_snd _ _ _ _

/-! ### Invariant preservation by the primitive store writes -/

theorem noOpen_congr {s s' : Store} (uid : Nat) (hq : s'.questions = s.questions)
    (h : noOpen s uid) : noOpen s' uid := by
  unfold noOpen at *
  rw [hq]
  exact h

theorem invAt_congr (xid : Nat) {s s' : Store} (hu : s'.users = s.users)
    (hq : s'.questions = s.questions) (hnu : s'.nextUserId = s.nextUserId)
    (hnq : s'.nextQuestionId = s.nextQuestionId) (h : InvAt s xid) : InvAt s' xid := by
  unfold InvAt custClauseAt atMostOneOpen uFresh qFresh qNodup noOpen at *
  rw [hu, hq, hnu, hnq]
  exact h

/-- Saving a user record preserves the invariant, provided the saved
record itself satisfies the customer clause. -/
theorem inv_saveUser_at (u : User) (s : Store) (h : InvAt s u.id) (hid : u.id ≠ 0)
    (hlt : u.id < s.nextUserId)
    (hc : u.isEmployee = false → u.state ≠ SQuestionDiscussion → noOpen s u.id) :
    Inv (saveUser u s).2 := by
  obtain ⟨h1, h2, h3, h4, h5, h6, h7⟩ := h
  unfold saveUser
  rw [if_neg hid]
  refine ⟨h1, ?_, ?_, h4, h5, h6, h7⟩
  · intro v hv hemp hst
    rcases List.mem_map.mp hv with ⟨v0, hv0, rfl⟩
    by_cases hcase : v0.id = u.id
    · rw [if_pos hcase] at hemp hst ⊢
      exact hc hemp hst
    · rw [if_neg hcase] at hemp hst ⊢
      exact h2 v0 hv0 hcase hemp hst
  · intro v hv
    rcases List.mem_map.mp hv with ⟨v0, hv0, rfl⟩
    by_cases hcase : v0.id = u.id
    · rw [if_pos hcase]
      exact ⟨hid, hlt⟩
    · rw [if_neg hcase]
      exact h3 v0 hv0

/-- Saving a user record also preserves the weaker `InvAt` form. -/
theorem invAt_saveUser_at (u : User) (s : Store) (xid : Nat) (h : InvAt s xid)
    (hid : u.id ≠ 0) (hlt : u.id < s.nextUserId) (hx : u.id = xid) :
    InvAt (saveUser u s).2 xid := by
  obtain ⟨h1, h2, h3, h4, h5, h6, h7⟩ := h
  unfold saveUser
  rw [if_neg hid]
  refine ⟨h1, ?_, ?_, h4, h5, h6, h7⟩
  · intro v hv hvx hemp hst
    rcases List.mem_map.mp hv with ⟨v0, hv0, rfl⟩
    by_cases hcase : v0.id = u.id
    · rw [if_pos hcase] at hvx hemp hst ⊢
      exact absurd hx hvx
    · rw [if_neg hcase] at hvx hemp hst ⊢
      exact h2 v0 hv0 hvx hemp hst
  · intro v hv
    rcases List.mem_map.mp hv with ⟨v0, hv0, rfl⟩
    by_cases hcase : v0.id = u.id
    · rw [if_pos hcase]
      exact ⟨hid, hlt⟩
    · rw [if_neg hcase]
      exact h3 v0 hv0

theorem saveQuestion_eq_replace (q' : Question) (s : Store) (h : q'.id ≠ 0) :
    (saveQuestion q' s).2 = { s with questions := s.questions.map (replaceById q'.id q') } := by
  unfold saveQuestion replaceById
  rw [if_neg h]

theorem map_replace_ids (l : List Question) (i : Nat) (q' : Question) (hid : q'.id = i) :
    (l.map (replaceById i q')).map (fun v => v.id) = l.map (fun v => v.id) := by
  rw [List.map_map]
  exact List.map_congr_left (fun a _ => by
    show (replaceById i q' a).id = a.id
    unfold replaceById
    split <;> simp_all)

/-- Closing a fetched question preserves `InvAt`. -/
theorem invAt_close (xid : Nat) (q : Question) (s : Store) (h : InvAt s xid)
    (hqid : q.id ≠ 0) : InvAt (changeQuestionIsClosed true q s).2 xid := by
  obtain ⟨h1, h2, h3, h4, h5, h6, h7⟩ := h
  have heq : (changeQuestionIsClosed true q s).2 =
      { s with questions := s.questions.map (replaceById q.id { q with isClosed := true }) } :=
    saveQuestion_eq_replace { q with isClosed := true } s hqid
  rw [heq]
  refine ⟨pairwise_close _ _ h1, ?_, h3, ?_, ?_, h6, h7⟩
  · intro v hv hvx hemp hst
    exact noOpen_close _ _ _ (h2 v hv hvx hemp hst)
  · intro v hv
    rcases List.mem_map.mp hv with ⟨v0, hv0, rfl⟩
    rw [replaceById_id q.id { q with isClosed := true } rfl]
    exact h4 v0 hv0
  · show (List.map _ _).Nodup
    rw [map_replace_ids s.questions q.id { q with isClosed := true } rfl]
    exact h5

/-- Updating a fetched question without touching asker or closed flag
preserves `InvAt`. -/
theorem invAt_update (xid : Nat) (q q' : Question) (s : Store) (h : InvAt s xid)
    (hq : q ∈ s.questions) (hqid : q.id ≠ 0) (hid : q'.id = q.id)
    (hu : q'.userID = q.userID) (hc : q'.isClosed = q.isClosed) :
    InvAt (saveQuestion q' s).2 xid := by
  obtain ⟨h1, h2, h3, h4, h5, h6, h7⟩ := h
  have hid0 : q'.id ≠ 0 := by rw [hid]; exact hqid
  have heq : (saveQuestion q' s).2 =
      { s with questions := s.questions.map (replaceById q.id q') } := by
    rw [saveQuestion_eq_replace q' s hid0, hid]
  rw [heq]
  refine ⟨pairwise_update _ _ _ h1 h5 hq hu hc, ?_, h3, ?_, ?_, h6, h7⟩
  · intro v hv hvx hemp hst
    exact noOpen_update _ _ _ _ h5 hq hu hc (h2 v hv hvx hemp hst)
  · intro v hv
    rcases List.mem_map.mp hv with ⟨v0, hv0, rfl⟩
    rw [replaceById_id _ _ hid]
    exact h4 v0 hv0
  · show (List.map _ _).Nodup
    rw [map_replace_ids _ _ _ hid]
    exact h5

/-- Creating a question for an asker with no open question preserves
`InvAt` at that asker. -/
theorem invAt_addQuestion (hd : String) (u : User) (s : Store) (h : InvAt s u.id)
    (hno : noOpen s u.id) : InvAt (addQuestion hd u s).2 u.id := by
  obtain ⟨h1, h2, h3, h4, h5, h6, h7⟩ := h
  unfold addQuestion saveQuestion
  rw [if_pos rfl]
  refine ⟨?_, ?_, h3, ?_, ?_, h6, ?_⟩
  · exact pairwise_append_new _ _ h1 hno
  · intro v hv hvx hemp hst
    intro qq hqq hquid
    rcases List.mem_append.mp hqq with hin | hin
    · exact h2 v hv hvx hemp hst qq hin hquid
    · rcases List.mem_singleton.mp hin with rfl
      exact absurd hquid.symm (by simpa using hvx)
  · intro qq hqq
    rcases List.mem_append.mp hqq with hin | hin
    · exact ⟨(h4 qq hin).1, Nat.lt_succ_of_lt (h4 qq hin).2⟩
    · rcases List.mem_singleton.mp hin with rfl
      exact ⟨h7, Nat.lt_succ_self _⟩
  · show (List.map _ _).Nodup
    rw [List.map_append, List.nodup_append]
    refine ⟨h5, by simp, ?_⟩
    intro a ha hb
    rcases List.mem_map.mp ha with ⟨q0, hq0, rfl⟩
    have hlt : q0.id < s.nextQuestionId := (h4 q0 hq0).2
    simp only [List.map_cons, List.map_nil, List.mem_singleton] at hb
    omega
  · exact Nat.succ_ne_zero _

/-! ### Projection toolbox for the remaining store writes -/

theorem saveUser_nextQ (u : User) (s : Store) :
    (saveUser u s).2.nextQuestionId = s.nextQuestionId := by
  unfold saveUser; split <;> rfl

theorem saveUser_nextU_ne (u : User) (s : Store) (h : u.id ≠ 0) :
    (saveUser u s).2.nextUserId = s.nextUserId := by
  unfold saveUser; rw [if_neg h]

theorem saveQuestion_nextU (q : Question) (s : Store) :
    (saveQuestion q s).2.nextUserId = s.nextUserId := by
  unfold saveQuestion; split <;> rfl

theorem saveReview_proj (r : Review) (s : Store) :
    (saveReview r s).2.users = s.users ∧ (saveReview r s).2.questions = s.questions ∧
    (saveReview r s).2.nextUserId = s.nextUserId ∧
    (saveReview r s).2.nextQuestionId = s.nextQuestionId := by
  unfold saveReview; split <;> exact ⟨rfl, rfl, rfl, rfl⟩

theorem saveCorr_proj (c : QuestionCorrespondence) (s : Store) :
    (saveCorr c s).2.users = s.users ∧ (saveCorr c s).2.questions = s.questions ∧
    (saveCorr c s).2.nextUserId = s.nextUserId ∧
    (saveCorr c s).2.nextQuestionId = s.nextQuestionId := by
  unfold saveCorr; split <;> exact ⟨rfl, rfl, rfl, rfl⟩

theorem invAt_saveReview (xid : Nat) (r : Review) (s : Store) (h : InvAt s xid) :
    InvAt (saveReview r s).2 xid := by
  obtain ⟨p1, p2, p3, p4⟩ := saveReview_proj r s
  exact invAt_congr xid p1 p2 p3 p4 h

theorem invAt_saveCorr (xid : Nat) (c : QuestionCorrespondence) (s : Store) (h : InvAt s xid) :
    InvAt (saveCorr c s).2 xid := by
  obtain ⟨p1, p2, p3, p4⟩ := saveCorr_proj c s
  exact invAt_congr xid p1 p2 p3 p4 h

theorem addCorrespondence_nextU (u : User) (mid : Nat) (s : Store) :
    (addCorrespondence u mid s).2.nextUserId = s.nextUserId := by
  unfold addCorrespondence
  dsimp only
  split <;> simp [(saveCorr_proj _ _).2.2.1]

theorem addCorrespondence_nextQ (u : User) (mid : Nat) (s : Store) :
    (addCorrespondence u mid s).2.nextQuestionId = s.nextQuestionId := by
  unfold addCorrespondence
  dsimp only
  split <;> simp [(saveCorr_proj _ _).2.2.2]

theorem invAt_addCorrespondence (xid : Nat) (u : User) (mid : Nat) (s : Store)
    (h : InvAt s xid) : InvAt (addCorrespondence u mid s).2 xid :=
  invAt_congr xid (addCorrespondence_users u mid s) (addCorrespondence_questions u mid s)
    (addCorrespondence_nextU u mid s) (addCorrespondence_nextQ u mid s) h

theorem changeTextReviewByUser_proj (t : String) (u : User) (s : Store) :
    (changeTextReviewByUser t u s).users = s.users ∧
    (changeTextReviewByUser t u s).questions = s.questions ∧
    (changeTextReviewByUser t u s).nextUserId = s.nextUserId ∧
    (changeTextReviewByUser t u s).nextQuestionId = s.nextQuestionId := by
  unfold changeTextReviewByUser
  split
  · exact ⟨rfl, rfl, rfl, rfl⟩
  · exact saveReview_proj _ _

theorem invAt_changeTextReview (xid : Nat) (t : String) (u : User) (s : Store)
    (h : InvAt s xid) : InvAt (changeTextReviewByUser t u s) xid := by
  obtain ⟨p1, p2, p3, p4⟩ := changeTextReviewByUser_proj t u s
  exact invAt_congr xid p1 p2 p3 p4 h

theorem invAt_parseReviewOp (xid now : Nat) (t : String) (u : User) (s : Store)
    (h : InvAt s xid) : InvAt (parseReviewOp now t u s) xid := by
  unfold parseReviewOp
  obtain ⟨p1, p2, p3, p4⟩ := saveReview_proj
    { id := 0, createdAt := now, rating := parseRating t, text := "", userID := u.id } s
  exact invAt_congr xid p1 p2 p3 p4 h

/-! ### Invariant preservation by the prompt renderers -/

/-- The question-side projections a user-record write leaves untouched. -/
def SameQ (s s' : Store) : Prop :=
  s'.questions = s.questions ∧ s'.nextUserId = s.nextUserId ∧
  s'.nextQuestionId = s.nextQuestionId

theorem sameQ_refl (s : Store) : SameQ s s := ⟨rfl, rfl, rfl⟩

theorem SameQ.trans {s1 s2 s3 : Store} (h1 : SameQ s1 s2) (h2 : SameQ s2 s3) : SameQ s1 s3 :=
  ⟨h2.1.trans h1.1, h2.2.1.trans h1.2.1, h2.2.2.trans h1.2.2⟩

theorem sameQ_saveUser (u : User) (s : Store) (hid : u.id ≠ 0) :
    SameQ s (saveUser u s).2 :=
  ⟨saveUser_questions u s, saveUser_nextU_ne u s hid, saveUser_nextQ u s⟩

/-- Saving an employee record preserves the invariant and the question
side. -/
theorem inv_empSave (v : User) (s : Store) (h : Inv s) (hemp : v.isEmployee = true)
    (hid : v.id ≠ 0) (hlt : v.id < s.nextUserId) :
    Inv (saveUser v s).2 ∧ SameQ s (saveUser v s).2 := by
  refine ⟨inv_saveUser_at v s (invAt_of_inv _ h) hid hlt ?_, sameQ_saveUser v s hid⟩
  intro hfalse
  rw [hemp] at hfalse
  cases hfalse

/-- The toggle-receiving composite write preserves the invariant. -/
theorem switchReceiver_store_inv (b : Bool) (u : User) (s : Store) (h : Inv s)
    (hemp : u.isEmployee = true) (hid : u.id ≠ 0) (hlt : u.id < s.nextUserId) :
    Inv (changeUserIsReceiver b (changeUserState SMain u s).1
      (changeUserState SMain u s).2).2 ∧
    SameQ s (changeUserIsReceiver b (changeUserState SMain u s).1
      (changeUserState SMain u s).2).2 := by
  have hu1 : (changeUserState SMain u s).1 = { u with state := SMain } :=
    changeUserState_fst _ _ _ hid
  rw [hu1]
  have hnu : (changeUserState SMain u s).2.nextUserId = s.nextUserId :=
    saveUser_nextU_ne _ _ hid
  have step1 : Inv (changeUserState SMain u s).2 ∧ SameQ s (changeUserState SMain u s).2 :=
    inv_empSave { u with state := SMain } s h hemp hid hlt
  have step2 := inv_empSave { u with state := SMain, isReceiver := b }
    (changeUserState SMain u s).2 step1.1 hemp hid (by rw [hnu]; exact hlt)
  exact ⟨step2.1, step1.2.trans step2.2⟩

/-- responserEmployee preserves the invariant and the question side (it
only writes the employee's own user record). -/
theorem responserEmployee_inv (ora : Nat → Bool) (u : User) (w : World)
    (h : Inv w.store) (hemp : u.isEmployee = true) (hid : u.id ≠ 0)
    (hlt : u.id < w.store.nextUserId) :
    Inv (responserEmployee ora u w).1.store ∧
    SameQ w.store (responserEmployee ora u w).1.store := by
  unfold responserEmployee
  dsimp only
  split_ifs <;>
    first
      | (rw [sendO_store]; exact ⟨h, sameQ_refl _⟩)
      | (rw [sendO_store]; exact inv_empSave { u with state := SMain } w.store h hemp hid hlt)
      | (rw [sendO_store]; exact switchReceiver_store_inv false u w.store h hemp hid hlt)
      | (rw [sendO_store]; exact switchReceiver_store_inv true u w.store h hemp hid hlt)
      | exact ⟨h, sameQ_refl _⟩

/-! ### What the filtered fetches guarantee -/

theorem getOpenQuestionByUser_spec {u : User} {s : Store} {q : Question}
    (h : getOpenQuestionByUser u s = some q) :
    q ∈ s.questions ∧ q.userID = u.id ∧ q.isClosed = false := by
  refine ⟨List.mem_of_find?_eq_some h, ?_⟩
  have hp := List.find?_some h
  simp only [Bool.and_eq_true, beq_iff_eq] at hp
  exact hp

theorem getOpenQuestionByAnswerer_spec {u : User} {s : Store} {q : Question}
    (h : getOpenQuestionByAnswerer u s = some q) :
    q ∈ s.questions ∧ q.answererID = u.id ∧ q.isClosed = false := by
  refine ⟨List.mem_of_find?_eq_some h, ?_⟩
  have hp := List.find?_some h
  simp only [Bool.and_eq_true, beq_iff_eq] at hp
  exact hp

theorem getNewQuestionById_spec {i : Int} {s : Store} {q : Question}
    (h : getNewQuestionById i s = some q) :
    q ∈ s.questions ∧ (q.id : Int) = i ∧ q.answererID = 0 ∧ q.haveAnswer = false ∧
      q.isClosed = false := by
  refine ⟨List.mem_of_find?_eq_some h, ?_⟩
  have hp := List.find?_some h
  simp only [Bool.and_eq_true, beq_iff_eq] at hp
  exact ⟨hp.1.1.1, hp.1.1.2, hp.1.2, hp.2⟩

theorem getUserByChatID_spec {c : Int} {s : Store} {u : User}
    (h : getUserByChatID c s = some u) : u ∈ s.users ∧ u.chatID = c := by
  refine ⟨List.mem_of_find?_eq_some h, ?_⟩
  have hp := List.find?_some h
  simpa using hp

theorem noOpen_of_none {u : User} {s : Store}
    (h : getOpenQuestionByUser u s = none) : noOpen s u.id := by
  intro q hq hquid
  have hp := List.find?_eq_none.mp h q hq
  simp only [Bool.and_eq_true, beq_iff_eq, not_and] at hp
  cases hcl : q.isClosed
  · exact absurd hcl (by simpa [hquid] using hp)
  · rfl

/-! ### Inv-form operation lemmas -/

theorem inv_of_invAt_noOpen {s : Store} {xid : Nat} (h : InvAt s xid) (hno : noOpen s xid) :
    Inv s := by
  obtain ⟨h1, h2, h3, h4, h5, h6, h7⟩ := h
  refine ⟨h1, ?_, h3, h4, h5, h6, h7⟩
  intro v hv hemp hst
  by_cases hx : v.id = xid
  · rw [hx]; exact hno
  · exact h2 v hv hx hemp hst

theorem inv_congr {s s' : Store} (hu : s'.users = s.users)
    (hq : s'.questions = s.questions) (hnu : s'.nextUserId = s.nextUserId)
    (hnq : s'.nextQuestionId = s.nextQuestionId) (h : Inv s) : Inv s' := by
  unfold Inv custClause atMostOneOpen uFresh qFresh qNodup noOpen at *
  rw [hu, hq, hnu, hnq]
  exact h

/-- Updating a fetched question without touching asker or closed flag
preserves the full invariant. -/
theorem inv_update (q q' : Question) (s : Store) (h : Inv s)
    (hq : q ∈ s.questions) (hqid : q.id ≠ 0) (hid : q'.id = q.id)
    (hu : q'.userID = q.userID) (hc : q'.isClosed = q.isClosed) :
    Inv (saveQuestion q' s).2 := by
  obtain ⟨h1, h2, h3, h4, h5, h6, h7⟩ := h
  have hid0 : q'.id ≠ 0 := by rw [hid]; exact hqid
  have heq : (saveQuestion q' s).2 =
      { s with questions := s.questions.map (replaceById q.id q') } := by
    rw [saveQuestion_eq_replace q' s hid0, hid]
  rw [heq]
  refine ⟨pairwise_update _ _ _ h1 h5 hq hu hc, ?_, h3, ?_, ?_, h6, h7⟩
  · intro v hv hemp hst
    exact noOpen_update _ _ _ _ h5 hq hu hc (h2 v hv hemp hst)
  · intro v hv
    rcases List.mem_map.mp hv with ⟨v0, hv0, rfl⟩
    rw [replaceById_id _ _ hid]
    exact h4 v0 hv0
  · show (List.map _ _).Nodup
    rw [map_replace_ids _ _ _ hid]
    exact h5

theorem inv_addCorrespondence (u : User) (mid : Nat) (s : Store) (h : Inv s) :
    Inv (addCorrespondence u mid s).2 :=
  inv_congr (addCorrespondence_users u mid s) (addCorrespondence_questions u mid s)
    (addCorrespondence_nextU u mid s) (addCorrespondence_nextQ u mid s) h

/-! ### Composite helpers for the dispatch branches -/

theorem responser_inv (ora : Nat → Bool) (u : User) (w : World) (h : Inv w.store)
    (hid : u.id ≠ 0) (hlt : u.id < w.store.nextUserId) :
    Inv (responser ora u w).1.store ∧ SameQ w.store (responser ora u w).1.store := by
  unfold responser
  split
  · exact responserEmployee_inv ora u w h (by assumption) hid hlt
  · rw [responserUser_store]
    exact ⟨h, sameQ_refl _⟩

theorem withRollback_inv (prev : Nat) (u1 : User) (w : World) (h : Inv w.store)
    (hid : u1.id ≠ 0) (hlt : u1.id < w.store.nextUserId) :
    Inv (withRollback allOk prev u1 w).1.store ∧
    SameQ w.store (withRollback allOk prev u1 w).1.store := by
  rw [withRollback_allOk]
  exact responser_inv allOk u1 w h hid hlt

/-- The common branch shape: write a new state for the acting user, then
prompt (with rollback on failure).  Under the all-success oracle no
rollback happens. -/
theorem stateChange_then_prompt_inv (st prev : Nat) (u : User) (w : World)
    (h : Inv w.store) (hid : u.id ≠ 0) (hlt : u.id < w.store.nextUserId)
    (hc : u.isEmployee = false → st ≠ SQuestionDiscussion → noOpen w.store u.id) :
    Inv (withRollback allOk prev (changeUserState st u w.store).1
      { w with store := (changeUserState st u w.store).2 }).1.store := by
  have hfst : (changeUserState st u w.store).1 = { u with state := st } :=
    changeUserState_fst _ _ _ hid
  have hnu : (changeUserState st u w.store).2.nextUserId = w.store.nextUserId :=
    saveUser_nextU_ne _ _ hid
  have s1inv : Inv (changeUserState st u w.store).2 :=
    inv_saveUser_at { u with state := st } w.store (invAt_of_inv _ h) hid hlt hc
  rw [hfst]
  refine (withRollback_inv prev { u with state := st }
    { w with store := (changeUserState st u w.store).2 } s1inv hid ?_).1
  show u.id < (changeUserState st u w.store).2.nextUserId
  rw [hnu]
  exact hlt

/-! ### Customer branch lemmas -/

theorem addQuestion_nextU (hd : String) (u : User) (s : Store) :
    (addQuestion hd u s).2.nextUserId = s.nextUserId := by
  unfold addQuestion; exact saveQuestion_nextU _ _

theorem parseReviewOp_proj (now : Nat) (t : String) (u : User) (s : Store) :
    (parseReviewOp now t u s).users = s.users ∧
    (parseReviewOp now t u s).questions = s.questions ∧
    (parseReviewOp now t u s).nextUserId = s.nextUserId ∧
    (parseReviewOp now t u s).nextQuestionId = s.nextQuestionId := by
  unfold parseReviewOp; exact saveReview_proj _ _

theorem changeQuestionIsClosed_eq (q : Question) (s : Store) (hqid : q.id ≠ 0) :
    (changeQuestionIsClosed true q s).2 =
      { s with questions := s.questions.map (replaceById q.id { q with isClosed := true }) } :=
  saveQuestion_eq_replace { q with isClosed := true } s hqid

theorem sendCorrespondenceFromUser_store (ora : Nat → Bool) (q : Question) (mid : Nat)
    (w : World) : (sendCorrespondenceFromUser ora q mid w).1.store = w.store := by
  unfold sendCorrespondenceFromUser; exact sendO_store _ _ _

theorem sendCorrespondenceFromAnswerer_store (ora : Nat → Bool) (q : Question) (mid : Nat)
    (w : World) : (sendCorrespondenceFromAnswerer ora q mid w).1.store = w.store := by
  unfold sendCorrespondenceFromAnswerer; exact sendO_store _ _ _

theorem cuMain_inv (u : User) (m : Msg) (w : World) (h : Inv w.store)
    (hid : u.id ≠ 0) (hlt : u.id < w.store.nextUserId) (hno : noOpen w.store u.id) :
    Inv (cuMain allOk u m w).1.store := by
  unfold cuMain
  dsimp only
  split_ifs <;>
    first
      | exact stateChange_then_prompt_inv _ _ u w h hid hlt (fun _ _ => hno)
      | exact h

theorem cuReview_inv (now : Nat) (u : User) (m : Msg) (w : World) (h : Inv w.store)
    (hid : u.id ≠ 0) (hlt : u.id < w.store.nextUserId) (hno : noOpen w.store u.id) :
    Inv (cuReview allOk now u m w).1.store := by
  unfold cuReview
  dsimp only
  split_ifs
  · obtain ⟨p1, p2, p3, p4⟩ := parseReviewOp_proj now m.text u w.store
    exact stateChange_then_prompt_inv SReviewText SReview u
      { w with store := parseReviewOp now m.text u w.store }
      (inv_congr p1 p2 p3 p4 h) hid
      (by show u.id < (parseReviewOp now m.text u w.store).nextUserId
          rw [p3]; exact hlt)
      (fun _ _ => noOpen_congr _ p2 hno)
  · exact h

theorem cuReviewText_inv (u : User) (m : Msg) (w : World) (h : Inv w.store)
    (hid : u.id ≠ 0) (hlt : u.id < w.store.nextUserId) (hno : noOpen w.store u.id) :
    Inv (cuReviewText allOk u m w).1.store := by
  unfold cuReviewText
  dsimp only
  obtain ⟨p1, p2, p3, p4⟩ :=
    changeTextReviewByUser_proj (if m.text = "❌Close" then "-" else m.text) u w.store
  exact stateChange_then_prompt_inv SMain SReviewText u
    { w with
      store := changeTextReviewByUser (if m.text = "❌Close" then "-" else m.text) u w.store }
    (inv_congr p1 p2 p3 p4 h) hid
    (by
      show u.id <
        (changeTextReviewByUser (if m.text = "❌Close" then "-" else m.text) u
          w.store).nextUserId
      rw [p3]
      exact hlt)
    (fun _ _ => noOpen_congr _ p2 hno)

theorem cuQuestion_inv (u : User) (m : Msg) (w : World) (h : Inv w.store)
    (hid : u.id ≠ 0) (hlt : u.id < w.store.nextUserId) (hno : noOpen w.store u.id) :
    Inv (cuQuestion allOk u m w).1.store := by
  unfold cuQuestion
  dsimp only
  split_ifs
  · exact stateChange_then_prompt_inv SMain SQuestion u w h hid hlt (fun _ _ => hno)
  · have hAt : InvAt (addQuestion m.text u w.store).2 u.id :=
      invAt_addQuestion _ _ _ (invAt_of_inv _ h) hno
    have hfan := fanOut_store allOk (addQuestion m.text u w.store).1
      (getReceivers (addQuestion m.text u w.store).2)
      { w with store := (addQuestion m.text u w.store).2 }
    generalize hW1 : (fanOut allOk (addQuestion m.text u w.store).1
      (getReceivers (addQuestion m.text u w.store).2)
      { w with store := (addQuestion m.text u w.store).2 }) = W1 at hfan ⊢
    have hI1 : InvAt W1.store u.id := by rw [hfan]; exact hAt
    have hnu1 : W1.store.nextUserId = w.store.nextUserId := by
      rw [hfan]
      show (addQuestion m.text u w.store).2.nextUserId = w.store.nextUserId
      exact addQuestion_nextU _ _ _
    have hs2 : Inv (changeUserState SQuestionDiscussion u W1.store).2 :=
      inv_saveUser_at { u with state := SQuestionDiscussion } W1.store hI1 hid
        (by rw [hnu1]; exact hlt) (fun _ hst => absurd rfl hst)
    have hfst : (changeUserState SQuestionDiscussion u W1.store).1 =
        { u with state := SQuestionDiscussion } := changeUserState_fst _ _ _ hid
    rw [hfst]
    exact (withRollback_inv SQuestion { u with state := SQuestionDiscussion }
      { W1 with store := (changeUserState SQuestionDiscussion u W1.store).2 } hs2 hid
      (by
        have hnu2 : (changeUserState SQuestionDiscussion u W1.store).2.nextUserId =
            W1.store.nextUserId := saveUser_nextU_ne _ _ hid
        show u.id < (changeUserState SQuestionDiscussion u W1.store).2.nextUserId
        rw [hnu2, hnu1]
        exact hlt)).1

/-- The close sub-step keeps the (exempted) invariant, leaves the asker
with no open question, reports success under the all-success oracle, and
does not move the user counter. -/
theorem cuDiscussionClose_facts (u1 : User) (mid : Nat) (w1 : World)
    (h : InvAt w1.store u1.id) :
    InvAt (cuDiscussionClose allOk u1 mid w1).1.store u1.id ∧
    noOpen (cuDiscussionClose allOk u1 mid w1).1.store u1.id ∧
    (cuDiscussionClose allOk u1 mid w1).2 = true ∧
    (cuDiscussionClose allOk u1 mid w1).1.store.nextUserId = w1.store.nextUserId := by
  unfold cuDiscussionClose
  dsimp only
  split
  · exact ⟨h, noOpen_of_none (by assumption), rfl, rfl⟩
  · rename_i q hq
    obtain ⟨hqmem, hquid, hqopen⟩ := getOpenQuestionByUser_spec hq
    have hqid : q.id ≠ 0 := (h.2.2.2.1 q hqmem).1
    have hI2 : InvAt (addCorrespondence u1 mid w1.store).2 u1.id :=
      invAt_addCorrespondence _ _ _ _ h
    have hs2q : (addCorrespondence u1 mid w1.store).2.questions = w1.store.questions :=
      addCorrespondence_questions _ _ _
    have hqmem2 : q ∈ (addCorrespondence u1 mid w1.store).2.questions := by
      rw [hs2q]; exact hqmem
    have hI3 : InvAt (changeQuestionIsClosed true q
        (addCorrespondence u1 mid w1.store).2).2 u1.id := invAt_close _ q _ hI2 hqid
    have hno3 : noOpen (changeQuestionIsClosed true q
        (addCorrespondence u1 mid w1.store).2).2 u1.id := by
      rw [changeQuestionIsClosed_eq q _ hqid]
      exact noOpen_after_close _ q u1.id hI2.1 hqmem2 hquid hqopen
    have hnu3 : (changeQuestionIsClosed true q
        (addCorrespondence u1 mid w1.store).2).2.nextUserId = w1.store.nextUserId := by
      show (saveQuestion _ _).2.nextUserId = _
      rw [saveQuestion_nextU]
      exact addCorrespondence_nextU _ _ _
    split
    · exact ⟨by rw [sendCorrespondenceFromUser_store]; exact hI3,
        by
          refine noOpen_congr _ ?_ hno3
          rw [sendCorrespondenceFromUser_store],
        rfl,
        by rw [sendCorrespondenceFromUser_store]; exact hnu3⟩
    · exact ⟨hI3, hno3, rfl, hnu3⟩

theorem cuDiscussion_inv (u : User) (m : Msg) (w : World) (h : Inv w.store)
    (hid : u.id ≠ 0) (hlt : u.id < w.store.nextUserId) :
    Inv (cuDiscussion allOk u m w).1.store := by
  unfold cuDiscussion
  dsimp only
  by_cases hclose : m.text = "❌Close"
  · rw [if_pos hclose]
    have hAt1 : InvAt (changeUserState SMain u w.store).2 u.id :=
      invAt_saveUser_at { u with state := SMain } w.store u.id (invAt_of_inv _ h) hid hlt rfl
    have hfst : (changeUserState SMain u w.store).1 = { u with state := SMain } :=
      changeUserState_fst _ _ _ hid
    have hid1 : (changeUserState SMain u w.store).1.id ≠ 0 := by rw [hfst]; exact hid
    have hcd := cuDiscussionClose_facts (changeUserState SMain u w.store).1 m.messageID
      { w with store := (changeUserState SMain u w.store).2 }
      (by rw [hfst]; exact hAt1)
    rw [hcd.2.2.1]
    simp only [eq_self_iff_true, if_true]
    refine (withRollback_inv SQuestionDiscussion (changeUserState SMain u w.store).1 _
      (inv_of_invAt_noOpen hcd.1 hcd.2.1) hid1 ?_).1
    rw [hcd.2.2.2]
    have hnu : (changeUserState SMain u w.store).2.nextUserId = w.store.nextUserId :=
      saveUser_nextU_ne _ _ hid
    show (changeUserState SMain u w.store).1.id <
      (changeUserState SMain u w.store).2.nextUserId
    rw [hfst, hnu]
    exact hlt
  · rw [if_neg hclose]
    split
    · exact h
    · rename_i q hq
      obtain ⟨hqmem, hquid, hqopen⟩ := getOpenQuestionByUser_spec hq
      have hqid : q.id ≠ 0 := (h.2.2.2.1 q hqmem).1
      have hws : ∀ wsr : World × Bool,
          wsr = (if answererPresent q w.store then
            sendCorrespondenceFromUser allOk q m.messageID w else (w, true)) →
          wsr.1.store = w.store ∧ wsr.2 = true := by
        intro wsr hdef
        rw [hdef]
        split
        · exact ⟨sendCorrespondenceFromUser_store _ _ _ _, rfl⟩
        · exact ⟨rfl, rfl⟩
      obtain ⟨hst, hok⟩ := hws _ rfl
      rw [hok]
      simp only [eq_self_iff_true, if_true]
      show Inv (addCorrespondence u m.messageID
        (changeQuestionHaveAnswer false q _).2).2
      refine inv_addCorrespondence _ _ _ ?_
      show Inv (saveQuestion { q with haveAnswer := false } _).2
      refine inv_update q { q with haveAnswer := false } _ ?_ ?_ hqid rfl rfl rfl
      · rw [hst]; exact h
      · rw [hst]; exact hqmem

/-! ### Employee branch lemmas -/

theorem stateChange_then_responser_inv (st : Nat) (u : User) (w : World)
    (h : Inv w.store) (hid : u.id ≠ 0) (hlt : u.id < w.store.nextUserId)
    (hc : u.isEmployee = false → st ≠ SQuestionDiscussion → noOpen w.store u.id) :
    Inv (responser allOk (changeUserState st u w.store).1
      { w with store := (changeUserState st u w.store).2 }).1.store := by
  have hfst : (changeUserState st u w.store).1 = { u with state := st } :=
    changeUserState_fst _ _ _ hid
  have hnu : (changeUserState st u w.store).2.nextUserId = w.store.nextUserId :=
    saveUser_nextU_ne _ _ hid
  have s1inv : Inv (changeUserState st u w.store).2 :=
    inv_saveUser_at { u with state := st } w.store (invAt_of_inv _ h) hid hlt hc
  rw [hfst]
  refine (responser_inv allOk { u with state := st }
    { w with store := (changeUserState st u w.store).2 } s1inv hid ?_).1
  show u.id < (changeUserState st u w.store).2.nextUserId
  rw [hnu]
  exact hlt

theorem emMain_inv (u : User) (m : Msg) (w : World) (h : Inv w.store)
    (hemp : u.isEmployee = true) (hid : u.id ≠ 0) (hlt : u.id < w.store.nextUserId) :
    Inv (emMain allOk u m w).1.store := by
  have hcemp : ∀ st : Nat,
      u.isEmployee = false → st ≠ SQuestionDiscussion → noOpen w.store u.id := by
    intro st hf
    rw [hemp] at hf
    cases hf
  unfold emMain
  dsimp only
  split_ifs <;>
    first
      | exact stateChange_then_responser_inv _ u w h hid hlt (hcemp _)
      | exact stateChange_then_prompt_inv _ _ u w h hid hlt (hcemp _)
      | (rw [sendQuestions_store]; exact h)
      | exact h

theorem emReview_inv (now : Nat) (u : User) (m : Msg) (w : World) (h : Inv w.store)
    (hemp : u.isEmployee = true) (hid : u.id ≠ 0) (hlt : u.id < w.store.nextUserId) :
    Inv (emReview allOk now u m w).1.store := by
  have hcemp : ∀ st : Nat,
      u.isEmployee = false → st ≠ SQuestionDiscussion → noOpen w.store u.id := by
    intro st hf
    rw [hemp] at hf
    cases hf
  unfold emReview
  dsimp only
  split_ifs <;>
    first
      | (rw [loadReviews_store]; exact h)
      | exact stateChange_then_prompt_inv _ _ u w h hid hlt (hcemp _)
      | exact h

theorem sendCorrespondenceFromAnswerer_allOk_snd (q : Question) (mid : Nat) (w : World) :
    (sendCorrespondenceFromAnswerer allOk q mid w).2 = true := rfl

theorem emDiscussion_inv (u : User) (m : Msg) (w : World) (h : Inv w.store)
    (hemp : u.isEmployee = true) (hid : u.id ≠ 0) (hlt : u.id < w.store.nextUserId) :
    Inv (emDiscussion allOk u m w).1.store := by
  unfold emDiscussion
  dsimp only
  by_cases hback : m.text = "↩️Back"
  · rw [if_pos hback]
    have hstep1 := inv_empSave { u with state := SMain } w.store h hemp hid hlt
    have hfst : (changeUserState SMain u w.store).1 = { u with state := SMain } :=
      changeUserState_fst _ _ _ hid
    have hnu : (changeUserState SMain u w.store).2.nextUserId = w.store.nextUserId :=
      saveUser_nextU_ne _ _ hid
    have hid1 : (changeUserState SMain u w.store).1.id ≠ 0 := by rw [hfst]; exact hid
    cases hqa : getOpenQuestionByAnswerer (changeUserState SMain u w.store).1
        (changeUserState SMain u w.store).2 with
    | none =>
      dsimp only
      refine (withRollback_inv SQuestionDiscussion _ _ ?_ hid1 ?_).1
      · exact hstep1.1
      · rw [hfst]
        show u.id < (changeUserState SMain u w.store).2.nextUserId
        rw [hnu]
        exact hlt
    | some q =>
      dsimp only
      obtain ⟨hqmem, _, _⟩ := getOpenQuestionByAnswerer_spec hqa
      have hqid : q.id ≠ 0 := (hstep1.1.2.2.2.1 q hqmem).1
      have hs2 : Inv (changeQuestionAnswerer 0 q (changeUserState SMain u w.store).2).2 :=
        inv_update q { q with answererID := 0 } _ hstep1.1 hqmem hqid rfl rfl rfl
      refine (withRollback_inv SQuestionDiscussion _ _ hs2 hid1 ?_).1
      have hnq2 : (changeQuestionAnswerer 0 q
          (changeUserState SMain u w.store).2).2.nextUserId =
          (changeUserState SMain u w.store).2.nextUserId := saveQuestion_nextU _ _
      rw [hfst]
      show u.id < (changeQuestionAnswerer 0 q
        (changeUserState SMain u w.store).2).2.nextUserId
      rw [hnq2, hnu]
      exact hlt
  · rw [if_neg hback]
    split
    · exact h
    · rename_i q hq
      obtain ⟨hqmem, _, _⟩ := getOpenQuestionByAnswerer_spec hq
      have hqid : q.id ≠ 0 := (h.2.2.2.1 q hqmem).1
      rw [sendCorrespondenceFromAnswerer_allOk_snd]
      simp only [eq_self_iff_true, if_true]
      show Inv (addCorrespondence u m.messageID
        (changeQuestionHaveAnswer true q _).2).2
      refine inv_addCorrespondence _ _ _ ?_
      show Inv (saveQuestion { q with haveAnswer := true } _).2
      refine inv_update q { q with haveAnswer := true } _ ?_ ?_ hqid rfl rfl rfl
      · rw [sendCorrespondenceFromAnswerer_store]; exact h
      · rw [sendCorrespondenceFromAnswerer_store]; exact hqmem

theorem emSearch_inv (u : User) (m : Msg) (w : World) (h : Inv w.store)
    (hemp : u.isEmployee = true) (hid : u.id ≠ 0) (hlt : u.id < w.store.nextUserId) :
    Inv (emSearch allOk u m w).1.store := by
  have hcemp : ∀ st : Nat,
      u.isEmployee = false → st ≠ SQuestionDiscussion → noOpen w.store u.id := by
    intro st hf
    rw [hemp] at hf
    cases hf
  unfold emSearch
  dsimp only
  split_ifs
  · exact stateChange_then_prompt_inv _ _ u w h hid hlt (hcemp _)
  · rw [loadFullQuestionById_store]; exact h

/-! ### The claim path -/

theorem loadCorrespondence_inv (ora : Nat → Bool) (i : Int) (u : User) (w : World)
    (h : Inv w.store) :
    Inv (loadCorrespondence ora i u w).1.store ∧
    (loadCorrespondence ora i u w).1.store.nextUserId = w.store.nextUserId := by
  unfold loadCorrespondence
  dsimp only
  split
  · rw [sendO_store]; exact ⟨h, rfl⟩
  · rename_i q hq
    obtain ⟨hqmem, _, _, _, _⟩ := getNewQuestionById_spec hq
    have hqid : q.id ≠ 0 := (h.2.2.2.1 q hqmem).1
    rw [replayLoop_store]
    exact ⟨inv_update q { q with answererID := u.id } w.store h hqmem hqid rfl rfl rfl,
      saveQuestion_nextU _ _⟩

theorem emClaim_inv (u : User) (d : String) (w : World) (h : Inv w.store)
    (hemp : u.isEmployee = true) (hid : u.id ≠ 0) (hlt : u.id < w.store.nextUserId) :
    Inv (emClaim allOk u d w).1.store := by
  unfold emClaim
  dsimp only
  split
  · exact h
  · rename_i i hi
    rw [loadCorrespondence_allOk_snd]
    simp only [eq_self_iff_true, if_true]
    obtain ⟨hrl, hrlnu⟩ := loadCorrespondence_inv allOk i u w h
    have hstep := inv_empSave { u with state := SQuestionDiscussion }
      (loadCorrespondence allOk i u w).1.store hrl hemp hid (by rw [hrlnu]; exact hlt)
    have hfst : (changeUserState SQuestionDiscussion u
        (loadCorrespondence allOk i u w).1.store).1 =
        { u with state := SQuestionDiscussion } := changeUserState_fst _ _ _ hid
    have hid1 : (changeUserState SQuestionDiscussion u
        (loadCorrespondence allOk i u w).1.store).1.id ≠ 0 := by rw [hfst]; exact hid
    refine (withRollback_inv SMain _ _ hstep.1 hid1 ?_).1
    rw [hfst]
    show u.id < (changeUserState SQuestionDiscussion u
      (loadCorrespondence allOk i u w).1.store).2.nextUserId
    have hnu : (changeUserState SQuestionDiscussion u
        (loadCorrespondence allOk i u w).1.store).2.nextUserId =
        (loadCorrespondence allOk i u w).1.store.nextUserId := saveUser_nextU_ne _ _ hid
    rw [hnu, hrlnu]
    exact hlt

/-! ### The /start command -/

theorem addUser_facts (c : Int) (n : String) (st : Nat) (s : Store) (h : Inv s) :
    (addUser c n st s).1.id ≠ 0 ∧
    (addUser c n st s).1.id < (addUser c n st s).2.nextUserId ∧
    InvAt (addUser c n st s).2 (addUser c n st s).1.id ∧
    (addUser c n st s).2.questions = s.questions := by
  unfold addUser
  dsimp only
  cases hf : s.users.find? (fun v => v.chatID == c || v.nickname == n) with
  | none =>
    dsimp only [Option.getD]
    unfold saveUser
    rw [if_pos rfl]
    refine ⟨h.2.2.2.2.2.1, Nat.lt_succ_self _, ⟨h.1, ?_, ?_, ?_, h.2.2.2.2.1,
      Nat.succ_ne_zero _, h.2.2.2.2.2.2⟩, rfl⟩
    · intro v hv hvx hemp hst
      rcases List.mem_append.mp hv with hin | hin
      · exact h.2.1 v hin hemp hst
      · rcases List.mem_singleton.mp hin with rfl
        exact absurd rfl hvx
    · intro v hv
      rcases List.mem_append.mp hv with hin | hin
      · exact ⟨(h.2.2.1 v hin).1, Nat.lt_succ_of_lt (h.2.2.1 v hin).2⟩
      · rcases List.mem_singleton.mp hin with rfl
        exact ⟨h.2.2.2.2.2.1, Nat.lt_succ_self _⟩
    · intro q hq
      exact ⟨(h.2.2.2.1 q hq).1, (h.2.2.2.1 q hq).2⟩
  | some u0 =>
    dsimp only [Option.getD]
    have hu0 := h.2.2.1 u0 (List.mem_of_find?_eq_some hf)
    have hfst : (saveUser { u0 with nickname := n, chatID := c, state := st, isReceiver := false } s).1 = { u0 with nickname := n, chatID := c, state := st, isReceiver := false } :=
      saveUser_fst _ _ hu0.1
    rw [hfst]
    refine ⟨hu0.1, ?_, ?_, saveUser_questions _ _⟩
    · have hnux : (saveUser { u0 with nickname := n, chatID := c, state := st, isReceiver := false } s).2.nextUserId = s.nextUserId := saveUser_nextU_ne _ _ hu0.1
      show u0.id < (saveUser { u0 with nickname := n, chatID := c, state := st, isReceiver := false } s).2.nextUserId
      rw [hnux]
      exact hu0.2
    · exact invAt_saveUser_at
        { u0 with nickname := n, chatID := c, state := st, isReceiver := false } s u0.id
        (invAt_of_inv _ h) hu0.1 hu0.2 rfl

theorem responserCommand_inv (cstr : String) (u1 : User) (w : World) (h : Inv w.store)
    (hid : u1.id ≠ 0) (hlt : u1.id < w.store.nextUserId) (hno : noOpen w.store u1.id) :
    Inv (responserCommand allOk cstr u1 w).1.store := by
  unfold responserCommand responserCommandEmployee responserCommandUser
  dsimp only
  split_ifs <;>
    first
      | exact h
      | (rw [sendO_store]
         exact inv_saveUser_at { u1 with state := SMain } w.store (invAt_of_inv _ h) hid hlt
           (fun _ _ => hno))

theorem parseCommand_inv (m : Msg) (w : World) (h : Inv w.store) :
    Inv (parseCommand allOk m w).2.1.store := by
  unfold parseCommand
  dsimp only
  split_ifs
  · obtain ⟨hid, hlt, hAt, hqs⟩ := addUser_facts m.fromID m.fromUserName SNew w.store h
    cases hq : getOpenQuestionByUser (addUser m.fromID m.fromUserName SNew w.store).1
        (addUser m.fromID m.fromUserName SNew w.store).2 with
    | none =>
      dsimp only
      have hno := noOpen_of_none hq
      exact responserCommand_inv m.text _ _ (inv_of_invAt_noOpen hAt hno) hid hlt hno
    | some q =>
      dsimp only
      obtain ⟨hqmem, hquid, hqopen⟩ := getOpenQuestionByUser_spec hq
      have hqid : q.id ≠ 0 := (hAt.2.2.2.1 q hqmem).1
      have hI3 := invAt_close _ q _ hAt hqid
      have hno3 : noOpen (changeQuestionIsClosed true q
          (addUser m.fromID m.fromUserName SNew w.store).2).2
          (addUser m.fromID m.fromUserName SNew w.store).1.id := by
        rw [changeQuestionIsClosed_eq q _ hqid]
        exact noOpen_after_close _ q _ hAt.1 hqmem hquid hqopen
      refine responserCommand_inv m.text _ _ (inv_of_invAt_noOpen hI3 hno3) hid ?_ hno3
      show (addUser m.fromID m.fromUserName SNew w.store).1.id <
        (changeQuestionIsClosed true q
          (addUser m.fromID m.fromUserName SNew w.store).2).2.nextUserId
      have hnu : (changeQuestionIsClosed true q
          (addUser m.fromID m.fromUserName SNew w.store).2).2.nextUserId =
          (addUser m.fromID m.fromUserName SNew w.store).2.nextUserId :=
        saveQuestion_nextU _ _
      rw [hnu]
      exact hlt
  · exact h

/-! ### Invariant preservation by the dispatchers under error-free delivery -/

theorem parseMessageUser_inv (now : Nat) (u : User) (m : Msg) (w : World)
    (h : Inv w.store) (hu : u ∈ w.store.users) (hemp : u.isEmployee = false) :
    Inv (parseMessageUser allOk now u m w).1.store := by
  have hids := h.2.2.1 u hu
  have hno : u.state ≠ SQuestionDiscussion → noOpen w.store u.id :=
    fun hst => h.2.1 u hu hemp hst
  unfold parseMessageUser
  split_ifs with h1 h2 h3 h4 h5 h6
  · exact inv_saveUser_at { u with state := SMain } w.store (invAt_of_inv _ h) hids.1
      hids.2 (fun _ _ => hno (by rw [h1]; decide))
  · exact cuMain_inv u m w h hids.1 hids.2 (hno (by rw [h2]; decide))
  · exact cuReview_inv now u m w h hids.1 hids.2 (hno (by rw [h3]; decide))
  · exact cuReviewText_inv u m w h hids.1 hids.2 (hno (by rw [h4]; decide))
  · exact cuQuestion_inv u m w h hids.1 hids.2 (hno (by rw [h5]; decide))
  · exact cuDiscussion_inv u m w h hids.1 hids.2
  · exact h

theorem parseMessageEmployee_inv (now : Nat) (u : User) (m : Msg) (w : World)
    (h : Inv w.store) (hu : u ∈ w.store.users) (hemp : u.isEmployee = true) :
    Inv (parseMessageEmployee allOk now u m w).1.store := by
  have hids := h.2.2.1 u hu
  unfold parseMessageEmployee
  split_ifs
  · exact inv_saveUser_at { u with state := SMain } w.store (invAt_of_inv _ h) hids.1
      hids.2 (fun hf _ => by rw [hemp] at hf; cases hf)
  · exact emMain_inv u m w h hemp hids.1 hids.2
  · exact emReview_inv now u m w h hemp hids.1 hids.2
  · exact emDiscussion_inv u m w h hemp hids.1 hids.2
  · exact emSearch_inv u m w h hemp hids.1 hids.2
  · exact h

theorem parseMessage_inv (now : Nat) (m : Msg) (w : World) (h : Inv w.store) :
    Inv (parseMessage allOk now m w).1.store := by
  unfold parseMessage
  dsimp only
  split
  · exact parseCommand_inv m w h
  · split
    · exact h
    · rename_i u hu
      obtain ⟨humem, _⟩ := getUserByChatID_spec hu
      split
      · exact parseMessageEmployee_inv now u m w h humem (by assumption)
      · rename_i hne
        exact parseMessageUser_inv now u m w h humem (by
          cases he : u.isEmployee
          · rfl
          · exact absurd he hne)

theorem parseCallback_inv (cb : Cb) (w : World) (h : Inv w.store) :
    Inv (parseCallback allOk cb w).1.store := by
  unfold parseCallback parseCallbackEmployee parseCallbackUser
  dsimp only
  split
  · exact h
  · rename_i u hu
    obtain ⟨humem, _⟩ := getUserByChatID_spec hu
    have hids := h.2.2.1 u humem
    split
    · rename_i hemp
      split_ifs <;> first
        | exact emClaim_inv u _ w h hemp hids.1 hids.2
        | exact h
    · exact h

theorem parseUpdate_inv (now : Nat) (up : Update) (w : World) (h : Inv w.store) :
    Inv (parseUpdate allOk now up w).1.store := by
  unfold parseUpdate
  dsimp only
  have h1 : Inv (match up.message with
      | some m => parseMessage allOk now m w
      | none => (w, true)).1.store := by
    cases up.message with
    | none => exact h
    | some m => exact parseMessage_inv now m w h
  cases up.callback with
  | none =>
    dsimp only
    split <;> exact h1
  | some cb =>
    dsimp only
    split <;>
      exact parseCallback_inv cb _ h1

/-- The initial store satisfies the invariant. -/
theorem inv_W0 : Inv W0.store := by
  refine ⟨List.Pairwise.nil, ?_, ?_, ?_, List.nodup_nil, ?_, ?_⟩ <;>
    first
      | (intro v hv; cases hv)
      | decide

/-- Every world reachable by error-free dispatch satisfies the inductive
invariant. -/
theorem reachableOk_inv {w : World} (h : ReachableOk w) : Inv w.store := by
  induction h with
  | init => exact inv_W0
  | step now up hr ih => exact parseUpdate_inv now up _ ih

/-! ## Claim C2 -/

/-- Trace refuting C2 as stated: a customer creates a question while the
confirmation send fails, so the dispatcher rolls their state back to
Question; the next message then creates a second open question for the
same asker. -/
def c2u1 : Update := ⟨1, some ⟨5, "alice", 11, "/start"⟩, none⟩

def c2u2 : Update := ⟨2, some ⟨5, "alice", 12, "❓Question"⟩, none⟩

def c2u3 : Update := ⟨3, some ⟨5, "alice", 13, "help me"⟩, none⟩

def c2u4 : Update := ⟨4, some ⟨5, "alice", 14, "help again"⟩, none⟩

/-- The all-failures delivery oracle. -/
def noneOk : Nat → Bool := fun _ => false

/-- The world after the four-step trace (third step with failing
delivery). -/
def c2w4 : World :=
  (parseUpdate allOk 0 c2u4 (parseUpdate noneOk 0 c2u3
    (parseUpdate allOk 0 c2u2 (parseUpdate allOk 0 c2u1 W0).1).1).1).1

/-- C2 counterexample: a world reachable by dispatch steps (the third
step suffering a delivery failure) holds two open questions of the same
asker, refuting the claim that every reachable store state has at most
one open question per asker and that every dispatch step preserves this. -/
theorem C2_counterexample : Reachable c2w4 ∧ ¬ atMostOneOpen c2w4.store := by
  constructor
  · exact .step allOk 0 c2u4 (.step noneOk 0 c2u3 (.step allOk 0 c2u2
      (.step allOk 0 c2u1 .init)))
  · decide

/-- C2 (amended): in error-free executions — every gateway delivery
succeeds — every store state reachable by dispatch steps has at most one
open (unclosed) question per asker; the query-before-create/claim logic
preserves this invariant only when the prompt deliveries do not fail
(a failed delivery rolls the asker back to the Question state with the
question already created, after which a second open question arises). -/
theorem C2_claim {w : World} (h : ReachableOk w) : atMostOneOpen w.store :=
  (reachableOk_inv h).1

/-- C2 witness: the amended claim applied to the concrete error-free
three-step trace /start, ❓Question, "help me". -/
theorem C2_claim_witness :
    atMostOneOpen (parseUpdate allOk 0 c2u3 (parseUpdate allOk 0 c2u2
      (parseUpdate allOk 0 c2u1 W0).1).1).1.store :=
  C2_claim (.step 0 c2u3 (.step 0 c2u2 (.step 0 c2u1 .init)))

/-! ## Claim C1 -/

/-- A store with one employee in Main and no questions: any claim id
fails the filtered fetch. -/
def c1store : Store :=
  { users := [{ id := 1, chatID := 10, nickname := "emp", state := SMain,
                isEmployee := true, isReceiver := true }],
    reviews := [], questions := [], corrs := [],
    nextUserId := 2, nextReviewId := 1, nextQuestionId := 1, nextCorrId := 1 }

def c1w : World := { store := c1store, offset := 0, outs := [], tick := 0 }

def c1up : Update := ⟨7, none, some ⟨10, "1-7"⟩⟩

/-- C1: evaluating the dispatcher at the failing input — an employee in
Main presses the claim button for a question id whose filtered fetch
returns nothing.  The "already taken" notice is sent, the Question table
is untouched, but contrary to the claim (and spec §4.2) the employee's
persisted State is changed to QuestionDiscussion and the
"You have entered a chat with a user" prompt is sent: loadCorrespondence
reports success after the "already taken" send, so parseCallbackEmployee
proceeds with the state transition. -/
theorem C1_code_bug_eval :
    (parseUpdate allOk 0 c1up c1w).1.outs =
      [.send 10 "Question already taken" .plain,
       .send 10 "You have entered a chat with a user" (.reply ["↩️Back"])] ∧
    ((getUserByChatID 10 (parseUpdate allOk 0 c1up c1w).1.store).map
      (fun v => v.state)) = some SQuestionDiscussion ∧
    SQuestionDiscussion ≠ SMain ∧
    (parseUpdate allOk 0 c1up c1w).1.store.questions = c1w.store.questions := by
  exact ⟨rfl, rfl, by decide, rfl⟩

/-! ## Claim C4 -/

/-- A store with a customer asker (id 1) in discussion and an employee
answerer (id 2) in discussion on the open question. -/
def c4store : Store :=
  { users := [{ id := 1, chatID := 1, nickname := "cust", state := SQuestionDiscussion,
                isEmployee := false, isReceiver := false },
              { id := 2, chatID := 2, nickname := "emp", state := SQuestionDiscussion,
                isEmployee := true, isReceiver := true }],
    reviews := [],
    questions := [{ id := 1, header := "help", userID := 1, answererID := 2,
                    haveAnswer := false, isClosed := false }],
    corrs := [],
    nextUserId := 3, nextReviewId := 1, nextQuestionId := 2, nextCorrId := 1 }

def c4w : World := { store := c4store, offset := 0, outs := [], tick := 0 }

def c4up : Update := ⟨9, some ⟨2, "emp", 50, "It shipped yesterday"⟩, none⟩

/-- C4: evaluating the dispatcher at the failing input — the employee
answerer sends a thread message.  A correspondence entry is appended for
the message, but its employee flag is false although the sender's
employee role is true: AddCorrespondence hardcodes IsEmployee to false,
contradicting the data model's stated purpose of the field. -/
theorem C4_code_bug_eval :
    ((getUserByChatID 2 c4w.store).map (fun v => v.isEmployee)) = some true ∧
    (parseUpdate allOk 0 c4up c4w).1.store.corrs =
      [{ id := 1, questionID := 1, messageID := 50, userID := 2, isEmployee := false }] ∧
    ((parseUpdate allOk 0 c4up c4w).1.store.corrs.map (fun e => e.isEmployee)) =
      [false] := by
  exact ⟨rfl, rfl, rfl⟩

/-! ## Claim C7 -/

/-- C7: the rating parser is a left inverse of star rendering: for every
rating r in 1..5, both the star run of length r and the single digit
token resolve to r (in particular "⭐⭐⭐" and "3" both resolve to 3). -/
theorem C7_claim (r : Nat) (h1 : 1 ≤ r) (h2 : r ≤ 5) :
    parseRating (ratingInStars r) = r ∧ parseRating (toString r) = r := by
  interval_cases r <;> exact ⟨by decide, by decide⟩

/-- C7 witness: the claim applied at rating 3. -/
theorem C7_claim_witness :
    1 ≤ 3 ∧ 3 ≤ 5 ∧ parseRating (ratingInStars 3) = 3 ∧ parseRating (toString 3) = 3 :=
  ⟨by decide, by decide, C7_claim 3 (by decide) (by decide)⟩

/-! ## Claim C10 -/

/-- C10: a claim-button callback (indeed, any callback) from an employee
whose state is not Main leaves the store and the delivered outputs
exactly unchanged: it is silently ignored. -/
theorem C10_claim (ora : Nat → Bool) (now nid : Nat) (c : Int) (d : String) (w : World)
    (u : User) (hu : getUserByChatID c w.store = some u) (hemp : u.isEmployee = true)
    (hst : u.state ≠ SMain) :
    (parseUpdate ora now ⟨nid, none, some ⟨c, d⟩⟩ w).1.store = w.store ∧
    (parseUpdate ora now ⟨nid, none, some ⟨c, d⟩⟩ w).1.outs = w.outs := by
  unfold parseUpdate parseCallback parseCallbackEmployee
  dsimp only
  rw [hu]
  dsimp only
  rw [if_pos hemp, if_neg hst]
  dsimp only
  split <;> exact ⟨rfl, rfl⟩

/-- A store with an employee sitting in the Review state. -/
def c10store : Store :=
  { users := [{ id := 1, chatID := 10, nickname := "emp", state := SReview,
                isEmployee := true, isReceiver := true }],
    reviews := [],
    questions := [{ id := 1, header := "open q", userID := 5, answererID := 0,
                    haveAnswer := false, isClosed := false }],
    corrs := [],
    nextUserId := 2, nextReviewId := 1, nextQuestionId := 2, nextCorrId := 1 }

def c10w : World := { store := c10store, offset := 0, outs := [], tick := 0 }

/-- C10 witness: the claim applied to an employee in the Review state
pressing the claim button of an open question. -/
theorem C10_claim_witness :
    (parseUpdate allOk 0 ⟨3, none, some ⟨10, "1-1"⟩⟩ c10w).1.store = c10w.store ∧
    (parseUpdate allOk 0 ⟨3, none, some ⟨10, "1-1"⟩⟩ c10w).1.outs = c10w.outs :=
  C10_claim allOk 0 3 10 "1-1" c10w
    { id := 1, chatID := 10, nickname := "emp", state := SReview,
      isEmployee := true, isReceiver := true }
    (by rfl) (by rfl) (by decide)

/-! ## Claim C5 -/

/-- C5 (amended): the cursor is advanced per inbound event, not per
batch: after an event processed without error it is set to that event's
id + 1; after an event whose processing fails it is left unchanged (and
the batch loop stops at the failure). -/
theorem C5_claim (ora : Nat → Bool) (now : Nat) (up : Update) (w : World) :
    ((parseUpdate ora now up w).2 = true ∧
      (parseUpdate ora now up w).1.offset = up.updateID + 1) ∨
    ((parseUpdate ora now up w).2 = false ∧
      (parseUpdate ora now up w).1.offset = w.offset) := by
  unfold parseUpdate
  dsimp only
  cases hm : up.message with
  | none =>
    cases hcb : up.callback with
    | none =>
      dsimp only
      rw [if_pos rfl]
      left
      exact ⟨rfl, rfl⟩
    | some cb =>
      dsimp only
      split
      · left; exact ⟨rfl, rfl⟩
      · rename_i hfail
        right
        exact ⟨rfl, parseCallback_offset _ _ _⟩
  | some m =>
    cases hcb : up.callback with
    | none =>
      dsimp only
      split
      · left; exact ⟨rfl, rfl⟩
      · rename_i hfail
        right
        exact ⟨rfl, parseMessage_offset _ _ _ _⟩
    | some cb =>
      dsimp only
      split
      · left; exact ⟨rfl, rfl⟩
      · rename_i hfail
        right
        refine ⟨rfl, ?_⟩
        rw [parseCallback_offset]
        exact parseMessage_offset _ _ _ _

/-- A store with one known customer in Main (chat 5). -/
def c5store : Store :=
  { users := [{ id := 1, chatID := 5, nickname := "a", state := SMain,
                isEmployee := false, isReceiver := false }],
    reviews := [], questions := [], corrs := [],
    nextUserId := 2, nextReviewId := 1, nextQuestionId := 1, nextCorrId := 1 }

def c5w : World := { store := c5store, offset := 10, outs := [], tick := 0 }

/-- An event that processes cleanly. -/
def c5u1 : Update := ⟨10, some ⟨5, "a", 1, "hello"⟩, none⟩

/-- An event from an unknown sender: its processing fails. -/
def c5u2 : Update := ⟨11, some ⟨99, "x", 2, "hi"⟩, none⟩

/-- C5 counterexample: a two-event batch whose second event fails.  The
batch is not fully and successfully processed, yet the persisted cursor
has advanced (from 10 to 11, after the first event) — refuting the claim
that the cursor is advanced only after a batch has been fully and
successfully processed. -/
theorem C5_counterexample :
    (processBatch allOk 0 [c5u1, c5u2] c5w).2 = false ∧
    (processBatch allOk 0 [c5u1, c5u2] c5w).1.offset = 11 ∧
    c5w.offset = 10 := by
  exact ⟨rfl, rfl, rfl⟩

/-! ## Claim C3 -/

/-- The claim-offer sends (inline-button messages) among a list of
outbound operations. -/
def offersOf (l : List Out) : List Out :=
  l.filter (fun o => match o with
    | .send _ _ (.inlineBtn _ _) => true
    | _ => false)

theorem offersOf_append (a b : List Out) :
    offersOf (a ++ b) = offersOf a ++ offersOf b :=
  List.filter_append a b

theorem offersOf_offers (vs : List User) (q : Question) :
    offersOf (vs.map (fun v => offerOut v.chatID q)) =
      vs.map (fun v => offerOut v.chatID q) := by
  apply List.filter_eq_self.mpr
  intro o ho
  rcases List.mem_map.mp ho with ⟨v, _, rfl⟩
  rfl

theorem offersOf_plain (c : Int) (t : String) : offersOf [Out.send c t .plain] = [] := rfl

theorem sendQuestions_one_allOk (c : Int) (q : Question) (w : World) :
    sendQuestions allOk c [q] w =
      ({ w with tick := w.tick + 1, outs := w.outs ++ [offerOut c q] }, true) := rfl

theorem fanOut_allOk_outs (q : Question) (vs : List User) (w : World) :
    (fanOut allOk q vs w).outs = w.outs ++ vs.map (fun v => offerOut v.chatID q) := by
  induction vs generalizing w with
  | nil => simp [fanOut]
  | cons v rest ih =>
    show (fanOut allOk q rest (sendQuestions allOk v.chatID [q] w).1).outs = _
    rw [sendQuestions_one_allOk]
    rw [ih]
    simp

theorem changeUserState_fst_fields (st : Nat) (u : User) (s : Store) :
    (changeUserState st u s).1.isEmployee = u.isEmployee ∧
    (changeUserState st u s).1.chatID = u.chatID ∧
    (changeUserState st u s).1.state = st := by
  unfold changeUserState saveUser
  split <;> exact ⟨rfl, rfl, rfl⟩

theorem responserUser_SQD_allOk (u1 : User) (w : World)
    (hst : u1.state = SQuestionDiscussion) :
    ∃ t, (responserUser allOk u1 w).1 =
      { w with tick := w.tick + 1, outs := w.outs ++ [.send u1.chatID t .plain] } := by
  unfold responserUser
  simp only [hst, SQuestionDiscussion, SMain, SReview, SReviewText, SQuestion]
  norm_num
  split <;> exact ⟨_, rfl⟩

theorem parseCommand_not_start (ora : Nat → Bool) (m : Msg) (w : World)
    (h : m.text ≠ "/start") : parseCommand ora m w = (false, w, true) := by
  unfold parseCommand
  rw [if_neg h]

/-- The claim-offers sent by the question-creation branch: exactly one
offer to each receiver returned by the receivers query, evaluated on the
store holding the new question. -/
theorem cuQuestion_create_offers (u : User) (m : Msg) (w : World)
    (hemp : u.isEmployee = false) (hclose : m.text ≠ "❌Close") :
    offersOf (cuQuestion allOk u m w).1.outs =
      offersOf w.outs ++
        (getReceivers (addQuestion m.text u w.store).2).map
          (fun v => offerOut v.chatID (addQuestion m.text u w.store).1) := by
  unfold cuQuestion
  dsimp only
  rw [if_neg hclose, withRollback_allOk]
  unfold responser
  have hfe : (changeUserState SQuestionDiscussion u (fanOut allOk
      (addQuestion m.text u w.store).1 (getReceivers (addQuestion m.text u w.store).2)
      { w with store := (addQuestion m.text u w.store).2 }).store).1.isEmployee = false := by
    rw [(changeUserState_fst_fields _ _ _).1]
    exact hemp
  rw [if_neg (by rw [hfe]; exact Bool.false_ne_true)]
  obtain ⟨t, ht⟩ := responserUser_SQD_allOk
    (changeUserState SQuestionDiscussion u (fanOut allOk
      (addQuestion m.text u w.store).1 (getReceivers (addQuestion m.text u w.store).2)
      { w with store := (addQuestion m.text u w.store).2 }).store).1
    { (fanOut allOk (addQuestion m.text u w.store).1
        (getReceivers (addQuestion m.text u w.store).2)
        { w with store := (addQuestion m.text u w.store).2 }) with
      store := (changeUserState SQuestionDiscussion u (fanOut allOk
        (addQuestion m.text u w.store).1 (getReceivers (addQuestion m.text u w.store).2)
        { w with store := (addQuestion m.text u w.store).2 }).store).2 }
    ((changeUserState_fst_fields _ _ _).2.2)
  rw [ht]
  show offersOf ((fanOut allOk (addQuestion m.text u w.store).1
      (getReceivers (addQuestion m.text u w.store).2)
      { w with store := (addQuestion m.text u w.store).2 }).outs ++ [_]) = _
  rw [fanOut_allOk_outs]
  show offersOf ((w.outs ++ _) ++ _) = _
  rw [offersOf_append, offersOf_append, offersOf_offers, offersOf_plain]
  simp

/-- C3 (amended): when a customer in the Question state submits a
non-close text, a question is created and a claim-offer for it is
delivered to exactly the set of Participants returned by the receivers
query — employee=true and accepting=true AND not recorded as answerer by
any question row (the NOT EXISTS filter the claim omits); every such
Participant receives exactly one offer keyed by the new question, and no
other inline-button offer is sent. -/
theorem C3_claim (now nid : Nat) (m : Msg) (w : World) (u : User)
    (hstart : m.text ≠ "/start") (hclose : m.text ≠ "❌Close")
    (hu : getUserByChatID m.fromID w.store = some u)
    (hemp : u.isEmployee = false) (hst : u.state = SQuestion) :
    offersOf (parseUpdate allOk now ⟨nid, some m, none⟩ w).1.outs =
      offersOf w.outs ++
        (getReceivers (addQuestion m.text u w.store).2).map
          (fun v => offerOut v.chatID (addQuestion m.text u w.store).1) := by
  unfold parseUpdate
  dsimp only
  have hmsg : (parseMessage allOk now m w).1.outs = (parseMessageUser allOk now u m w).1.outs := by
    unfold parseMessage
    rw [parseCommand_not_start allOk m w hstart]
    dsimp only
    rw [if_neg Bool.false_ne_true, hu]
    dsimp only
    rw [if_neg (by rw [hemp]; exact Bool.false_ne_true)]
  have hval : (parseMessageUser allOk now u m w).1.outs =
      (cuQuestion allOk u m w).1.outs := by
    unfold parseMessageUser
    simp only [hst, SNew, SMain, SReview, SReviewText, SQuestion]
    norm_num
  split <;>
    first
      | (show offersOf (parseMessage allOk now m w).1.outs = _
         rw [hmsg, hval]
         exact cuQuestion_create_offers u m w hemp hclose)

/-- A store for the C3 witness: a customer in Question (chat 1) and one
accepting employee (chat 2) with no recorded answers. -/
def c3wstore : Store :=
  { users := [{ id := 1, chatID := 1, nickname := "cust", state := SQuestion,
                isEmployee := false, isReceiver := false },
              { id := 2, chatID := 2, nickname := "emp", state := SMain,
                isEmployee := true, isReceiver := true }],
    reviews := [], questions := [], corrs := [],
    nextUserId := 3, nextReviewId := 1, nextQuestionId := 1, nextCorrId := 1 }

def c3ww : World := { store := c3wstore, offset := 0, outs := [], tick := 0 }

def c3wmsg : Msg := ⟨1, "cust", 21, "Why is my order late?"⟩

/-- C3 witness: the amended claim applied to a concrete store with one
accepting employee; the single delivered offer carries the claim button
keyed by the new question id 1. -/
theorem C3_claim_witness :
    c3wmsg.text ≠ "/start" ∧ c3wmsg.text ≠ "❌Close" ∧
    getUserByChatID c3wmsg.fromID c3ww.store = some
      { id := 1, chatID := 1, nickname := "cust", state := SQuestion,
        isEmployee := false, isReceiver := false } ∧
    offersOf (parseUpdate allOk 0 ⟨1, some c3wmsg, none⟩ c3ww).1.outs =
      offersOf c3ww.outs ++
        (getReceivers (addQuestion c3wmsg.text
          { id := 1, chatID := 1, nickname := "cust", state := SQuestion,
            isEmployee := false, isReceiver := false } c3ww.store).2).map
          (fun v => offerOut v.chatID (addQuestion c3wmsg.text
            { id := 1, chatID := 1, nickname := "cust", state := SQuestion,
              isEmployee := false, isReceiver := false } c3ww.store).1) :=
  ⟨by decide, by decide, by rfl,
    C3_claim 0 1 c3wmsg c3ww _ (by decide) (by decide) (by rfl) rfl rfl⟩

/-- A store refuting C3 as stated: the employee (chat 2) is accepting
(employee=true and accepting=true) but is recorded as answerer of an old
closed question, so the NOT EXISTS filter excludes them. -/
def c3cstore : Store :=
  { users := [{ id := 1, chatID := 1, nickname := "cust", state := SQuestion,
                isEmployee := false, isReceiver := false },
              { id := 2, chatID := 2, nickname := "emp", state := SMain,
                isEmployee := true, isReceiver := true }],
    reviews := [],
    questions := [{ id := 1, header := "old", userID := 7, answererID := 2,
                    haveAnswer := true, isClosed := true }],
    corrs := [],
    nextUserId := 3, nextReviewId := 1, nextQuestionId := 2, nextCorrId := 1 }

def c3cw : World := { store := c3cstore, offset := 0, outs := [], tick := 0 }

/-- C3 counterexample: the employee has employee=true and accepting=true,
a question is created by the customer's submission, yet no claim-offer at
all is delivered (the employee is excluded by the answerer subquery) —
refuting "every such Participant receives the offer". -/
theorem C3_counterexample :
    ((getUserByChatID 2 c3cw.store).map (fun v => (v.isEmployee, v.isReceiver))) =
      some (true, true) ∧
    (parseUpdate allOk 0 ⟨1, some ⟨1, "cust", 21, "help"⟩, none⟩ c3cw).1.store.questions.length
      = 2 ∧
    offersOf (parseUpdate allOk 0 ⟨1, some ⟨1, "cust", 21, "help"⟩, none⟩ c3cw).1.outs = [] := by
  exact ⟨rfl, rfl, rfl⟩

/-! ## Claim C6 -/

/-- Number of entries delivered before the first send failure, starting
at oracle position t, out of n entries. -/
def deliveredCount (ora : Nat → Bool) : Nat → Nat → Nat
  | _, 0 => 0
  | t, n + 1 => if ora t then deliveredCount ora (t + 1) n + 1 else 0

theorem deliveredCount_succ (ora : Nat → Bool) (t n : Nat) :
    deliveredCount ora t (n + 1) = if ora t then deliveredCount ora (t + 1) n + 1 else 0 := by
  rw [deliveredCount]

theorem deliveredCount_le (ora : Nat → Bool) (t n : Nat) : deliveredCount ora t n ≤ n := by
  induction n generalizing t with
  | zero => exact Nat.le_refl _
  | succ n ih =>
    unfold deliveredCount
    split
    · exact Nat.succ_le_succ (ih _)
    · exact Nat.zero_le _

/-- The replay loop delivers exactly the prefix of the entry list up to
the first failing send, in order. -/
theorem replayLoop_spec (ora : Nat → Bool) (c : Int) (s : Store)
    (es : List QuestionCorrespondence) (w : World) :
    (replayLoop ora c s es w).1.outs =
      w.outs ++ (es.take (deliveredCount ora w.tick es.length)).map (replayOut c s) ∧
    (deliveredCount ora w.tick es.length < es.length →
      ora (w.tick + deliveredCount ora w.tick es.length) = false) := by
  induction es generalizing w with
  | nil => simp [replayLoop, deliveredCount]
  | cons e rest ih =>
    unfold replayLoop sendO
    dsimp only
    simp only [List.length_cons]
    rcases Bool.eq_false_or_eq_true (ora w.tick) with hora | hora
    case inr =>
      have hne : ¬ (ora w.tick = true) := by rw [hora]; exact Bool.false_ne_true
      rw [if_neg hne]
      dsimp only
      rw [if_neg Bool.false_ne_true]
      dsimp only
      have hdc : deliveredCount ora w.tick (rest.length + 1) = 0 := by
        rw [deliveredCount_succ, if_neg hne]
      rw [hdc]
      exact ⟨by simp, fun _ => by simpa using hora⟩
    case inl =>
      rw [if_pos hora]
      dsimp only
      rw [if_pos rfl]
      have hdc : deliveredCount ora w.tick (rest.length + 1) =
          deliveredCount ora (w.tick + 1) rest.length + 1 := by
        rw [deliveredCount_succ, if_pos hora]
      rw [hdc]
      obtain ⟨ih1, ih2⟩ := ih { w with tick := w.tick + 1, outs := w.outs ++ [replayOut c s e] }
      constructor
      · rw [ih1]
        simp
      · intro hlt
        have h2 := ih2 (Nat.lt_of_succ_lt_succ hlt)
        rw [show w.tick + (deliveredCount ora (w.tick + 1) rest.length + 1) =
          w.tick + 1 + deliveredCount ora (w.tick + 1) rest.length from by omega]
        exact h2

theorem mem_insertById {c x : QuestionCorrespondence} {l : List QuestionCorrespondence} :
    x ∈ insertById c l → x = c ∨ x ∈ l := by
  induction l with
  | nil =>
    intro h
    exact Or.inl (by simpa [insertById] using h)
  | cons d ds ih =>
    intro h
    unfold insertById at h
    by_cases hle : c.id ≤ d.id
    · rw [if_pos hle] at h
      rcases List.mem_cons.mp h with h1 | h1
      · exact Or.inl h1
      · exact Or.inr h1
    · rw [if_neg hle] at h
      rcases List.mem_cons.mp h with h1 | h1
      · exact Or.inr (by simp [h1])
      · rcases ih h1 with h2 | h2
        · exact Or.inl h2
        · exact Or.inr (List.mem_cons_of_mem _ h2)

theorem insertById_sorted (c : QuestionCorrespondence) (l : List QuestionCorrespondence)
    (h : l.Pairwise (fun a b => a.id ≤ b.id)) :
    (insertById c l).Pairwise (fun a b => a.id ≤ b.id) := by
  induction l with
  | nil => simp [insertById]
  | cons d ds ih =>
    unfold insertById
    by_cases hle : c.id ≤ d.id
    · rw [if_pos hle]
      refine List.Pairwise.cons ?_ h
      intro x hx
      rcases List.mem_cons.mp hx with rfl | hx
      · exact hle
      · exact Nat.le_trans hle ((List.pairwise_cons.mp h).1 x hx)
    · rw [if_neg hle]
      have hd := List.pairwise_cons.mp h
      refine List.Pairwise.cons ?_ (ih hd.2)
      intro x hx
      rcases mem_insertById hx with rfl | hx
      · exact Nat.le_of_not_le hle
      · exact hd.1 x hx

theorem orderById_sorted (l : List QuestionCorrespondence) :
    (orderById l).Pairwise (fun a b => a.id ≤ b.id) := by
  induction l with
  | nil => exact List.Pairwise.nil
  | cons c cs ih => exact insertById_sorted c (orderById cs) ih

/-- C6: on a successful claim, correspondence replay delivers the
question's entries — fetched in ascending id (creation) order — each by a
forward from the original sender's chat; the delivered sequence is the
prefix of the stored sequence up to the first delivery failure (the full
sequence when every send succeeds). -/
theorem C6_claim (ora : Nat → Bool) (i : Int) (u : User) (w : World) (q : Question)
    (hq : getNewQuestionById i w.store = some q) :
    ∃ k,
      ((getCorrespondenceByQuestion (changeQuestionAnswerer u.id q w.store).1
          (changeQuestionAnswerer u.id q w.store).2).map (fun e => e.id)).Pairwise
        (fun a b => a ≤ b) ∧
      k ≤ (getCorrespondenceByQuestion (changeQuestionAnswerer u.id q w.store).1
          (changeQuestionAnswerer u.id q w.store).2).length ∧
      (loadCorrespondence ora i u w).1.outs =
        w.outs ++ ((getCorrespondenceByQuestion (changeQuestionAnswerer u.id q w.store).1
          (changeQuestionAnswerer u.id q w.store).2).take k).map
            (replayOut u.chatID (changeQuestionAnswerer u.id q w.store).2) ∧
      (k < (getCorrespondenceByQuestion (changeQuestionAnswerer u.id q w.store).1
          (changeQuestionAnswerer u.id q w.store).2).length → ora (w.tick + k) = false) := by
  refine ⟨deliveredCount ora w.tick
    (getCorrespondenceByQuestion (changeQuestionAnswerer u.id q w.store).1
      (changeQuestionAnswerer u.id q w.store).2).length, ?_, deliveredCount_le _ _ _, ?_, ?_⟩
  · unfold getCorrespondenceByQuestion
    exact List.Pairwise.map _ (fun a b hab => hab) (orderById_sorted _)
  · unfold loadCorrespondence
    rw [hq]
    dsimp only
    exact (replayLoop_spec ora u.chatID (changeQuestionAnswerer u.id q w.store).2
      (getCorrespondenceByQuestion (changeQuestionAnswerer u.id q w.store).1
        (changeQuestionAnswerer u.id q w.store).2)
      { w with store := (changeQuestionAnswerer u.id q w.store).2 }).1
  · exact (replayLoop_spec ora u.chatID (changeQuestionAnswerer u.id q w.store).2
      (getCorrespondenceByQuestion (changeQuestionAnswerer u.id q w.store).1
        (changeQuestionAnswerer u.id q w.store).2)
      { w with store := (changeQuestionAnswerer u.id q w.store).2 }).2

def c6q : Question :=
  { id := 1, header := "hdr", userID := 1, answererID := 0, haveAnswer := false,
    isClosed := false }

def c6emp : User :=
  { id := 2, chatID := 20, nickname := "emp", state := SMain, isEmployee := true,
    isReceiver := true }

def c6cust : User :=
  { id := 1, chatID := 10, nickname := "cust", state := SQuestionDiscussion,
    isEmployee := false, isReceiver := false }

def c6corr1 : QuestionCorrespondence :=
  { id := 1, questionID := 1, messageID := 100, userID := 1, isEmployee := false }

def c6corr2 : QuestionCorrespondence :=
  { id := 2, questionID := 1, messageID := 101, userID := 2, isEmployee := true }

def c6store : Store :=
  { users := [c6cust, c6emp], reviews := [], questions := [c6q],
    corrs := [c6corr1, c6corr2], nextUserId := 3, nextReviewId := 1, nextQuestionId := 2,
    nextCorrId := 3 }

def c6w : World := { store := c6store, offset := 5, outs := [], tick := 0 }

/-- Witness for C6: at a concrete store with a claimable question carrying
two correspondence rows, the claim hypothesis holds and the replay
conclusion is obtained by the theorem. -/
theorem C6_claim_witness :
    getNewQuestionById 1 c6w.store = some c6q ∧
    ∃ k,
      ((getCorrespondenceByQuestion (changeQuestionAnswerer c6emp.id c6q c6w.store).1
          (changeQuestionAnswerer c6emp.id c6q c6w.store).2).map (fun e => e.id)).Pairwise
        (fun a b => a ≤ b) ∧
      k ≤ (getCorrespondenceByQuestion (changeQuestionAnswerer c6emp.id c6q c6w.store).1
          (changeQuestionAnswerer c6emp.id c6q c6w.store).2).length ∧
      (loadCorrespondence allOk 1 c6emp c6w).1.outs =
        c6w.outs ++ ((getCorrespondenceByQuestion (changeQuestionAnswerer c6emp.id c6q c6w.store).1
          (changeQuestionAnswerer c6emp.id c6q c6w.store).2).take k).map
            (replayOut c6emp.chatID (changeQuestionAnswerer c6emp.id c6q c6w.store).2) ∧
      (k < (getCorrespondenceByQuestion (changeQuestionAnswerer c6emp.id c6q c6w.store).1
          (changeQuestionAnswerer c6emp.id c6q c6w.store).2).length →
        allOk (c6w.tick + k) = false) :=
  ⟨rfl, C6_claim allOk 1 c6emp c6w c6q rfl⟩

/-! ## Claim C8 -/

theorem responserEmployee_SMain_store (ora : Nat → Bool) (u : User) (w : World)
    (h : u.state = SMain) :
    (responserEmployee ora u w).1.store = w.store := by
  unfold responserEmployee
  rw [if_pos h]
  dsimp only
  exact sendO_store _ _ _

theorem responser_emp_SMain_store (ora : Nat → Bool) (u : User) (w : World)
    (hemp : u.isEmployee = true) (h : u.state = SMain) :
    (responser ora u w).1.store = w.store := by
  unfold responser
  rw [if_pos hemp]
  exact responserEmployee_SMain_store _ _ _ h

/-- After map-replacing the user keyed by the id of the first chat match,
the chat lookup returns the replacement (which keeps the chat id). -/
theorem find?_users_replace (c : Int) (u u1 : User) :
    ∀ l : List User, l.find? (fun v => v.chatID == c) = some u →
    u1.chatID = u.chatID →
    (l.map (fun v => if v.id = u.id then u1 else v)).find? (fun v => v.chatID == c) =
      some u1 := by
  intro l
  induction l with
  | nil => intro hfind _; simp at hfind
  | cons d ds ih =>
    intro hfind hc
    simp only [List.map_cons]
    by_cases hd : (d.chatID == c) = true
    · have hpos : List.find? (fun v => v.chatID == c) (d :: ds) = some d :=
        List.find?_cons_of_pos _ hd
      have hud : d = u := by
        rw [hpos] at hfind
        exact Option.some.inj hfind
      subst hud
      rw [if_pos rfl]
      exact List.find?_cons_of_pos _ (show (u1.chatID == c) = true from by rw [hc]; exact hd)
    · have hneg : List.find? (fun v => v.chatID == c) (d :: ds) =
          List.find? (fun v => v.chatID == c) ds :=
        List.find?_cons_of_neg _ (by simpa using hd)
      have hfind2 : ds.find? (fun v => v.chatID == c) = some u := by
        rw [hneg] at hfind
        exact hfind
      by_cases hdu : d.id = u.id
      · rw [if_pos hdu]
        have hmatch := List.find?_some hfind2
        exact List.find?_cons_of_pos _
          (show (u1.chatID == c) = true from by rw [hc]; exact hmatch)
      · rw [if_neg hdu]
        have hneg2 : List.find? (fun v => v.chatID == c)
            (d :: List.map (fun v => if v.id = u.id then u1 else v) ds) =
            List.find? (fun v => v.chatID == c)
              (List.map (fun v => if v.id = u.id then u1 else v) ds) :=
          List.find?_cons_of_neg _ (by simpa using hd)
        rw [hneg2]
        exact ih hfind2 hc

/-- After map-replacing every question with the given id, any lookup whose
predicate holds only at that id and holds at the replacement finds the
replacement, provided some question with the id is present. -/
theorem find?_questions_replace (i : Nat) (q' : Question) (p : Question → Bool)
    (hpq' : p q' = true) (hponly : ∀ v, p v = true → v.id = i) :
    ∀ l : List Question, (∃ v, v ∈ l ∧ v.id = i) →
    (l.map (fun v => if v.id = i then q' else v)).find? p = some q' := by
  intro l
  induction l with
  | nil => intro hmem; rcases hmem with ⟨v, hv, _⟩; simp at hv
  | cons d ds ih =>
    intro hmem
    simp only [List.map_cons]
    by_cases hdi : d.id = i
    · rw [if_pos hdi]
      exact List.find?_cons_of_pos _ hpq'
    · rw [if_neg hdi]
      have hpd : ¬ (p d = true) := fun hpd => hdi (hponly d hpd)
      have hneg : List.find? p (d :: List.map (fun v => if v.id = i then q' else v) ds) =
          List.find? p (List.map (fun v => if v.id = i then q' else v) ds) :=
        List.find?_cons_of_neg _ hpd
      rw [hneg]
      apply ih
      rcases hmem with ⟨v, hv, hvi⟩
      rcases List.mem_cons.mp hv with rfl | hv2
      · exact absurd hvi hdi
      · exact ⟨v, hv2, hvi⟩

/-- C8 (amended): when an employee in QuestionDiscussion sends the back
button, the claim on their open question is released without closing it
and the employee returns to Main; the question satisfies the claim-offer
fetch filter afterward ONLY under the additional hypothesis that no answer
was ever sent on it (haveAnswer = false) — the Go filter also excludes
answered questions, so in general a released question is not claimable
again (see the counterexample). -/
theorem C8_claim (now : Nat) (m : Msg) (u : User) (q : Question) (w : World)
    (hback : m.text = "↩️Back")
    (hu : getUserByChatID m.fromID w.store = some u)
    (hemp : u.isEmployee = true)
    (hstate : u.state = SQuestionDiscussion)
    (hid : u.id ≠ 0)
    (hq : getOpenQuestionByAnswerer u w.store = some q)
    (hqid : q.id ≠ 0)
    (hha : q.haveAnswer = false) :
    (parseMessage allOk now m w).2 = true ∧
    getUserByChatID m.fromID (parseMessage allOk now m w).1.store =
      some { u with state := SMain } ∧
    getQuestionById (q.id : Int) (parseMessage allOk now m w).1.store =
      some { q with answererID := 0 } ∧
    q.isClosed = false ∧
    getNewQuestionById (q.id : Int) (parseMessage allOk now m w).1.store =
      some { q with answererID := 0 } := by
  have hq' : w.store.questions.find?
      (fun v => v.answererID == u.id && v.isClosed == false) = some q := hq
  have hqf := List.find?_some hq'
  simp only [Bool.and_eq_true, beq_iff_eq] at hqf
  have hisClosed : q.isClosed = false := hqf.2
  have hu' : w.store.users.find? (fun v => v.chatID == m.fromID) = some u := hu
  have hpm : parseMessage allOk now m w = emDiscussion allOk u m w := by
    unfold parseMessage parseCommand
    dsimp only
    rw [hback]
    rw [if_neg (by decide : ¬ ("↩️Back" = "/start"))]
    dsimp only
    rw [if_neg (show ¬ (false = true) from by decide)]
    rw [hu]
    dsimp only
    rw [if_pos hemp]
    unfold parseMessageEmployee
    rw [hstate]
    rw [if_neg (by decide : ¬ (SQuestionDiscussion = SNew)),
      if_neg (by decide : ¬ (SQuestionDiscussion = SMain)),
      if_neg (by decide : ¬ (SQuestionDiscussion = SReview)),
      if_pos rfl]
  have hu1 : (changeUserState SMain u w.store).1 = { u with state := SMain } :=
    changeUserState_fst _ _ _ hid
  have hq2 : getOpenQuestionByAnswerer (changeUserState SMain u w.store).1
      (changeUserState SMain u w.store).2 = some q := by
    unfold getOpenQuestionByAnswerer
    rw [changeUserState_questions, hu1]
    exact hq'
  have hed : emDiscussion allOk u m w =
      withRollback allOk SQuestionDiscussion { u with state := SMain }
        { w with store := (changeQuestionAnswerer 0 q (changeUserState SMain u w.store).2).2 } := by
    unfold emDiscussion
    rw [hback]
    rw [if_pos rfl]
    dsimp only
    rw [hq2]
    rw [hu1]
  have hfinal : parseMessage allOk now m w =
      ((responser allOk { u with state := SMain }
        { w with store :=
          (changeQuestionAnswerer 0 q (changeUserState SMain u w.store).2).2 }).1, true) := by
    rw [hpm, hed, withRollback_allOk]
  have hstore : (parseMessage allOk now m w).1.store =
      (changeQuestionAnswerer 0 q (changeUserState SMain u w.store).2).2 := by
    rw [hfinal]
    exact responser_emp_SMain_store _ _ _ hemp rfl
  have husers : (changeQuestionAnswerer 0 q (changeUserState SMain u w.store).2).2.users =
      w.store.users.map (fun v => if v.id = u.id then { u with state := SMain } else v) := by
    unfold changeQuestionAnswerer
    rw [saveQuestion_users]
    unfold changeUserState saveUser
    dsimp only
    rw [if_neg hid]
  have hquestions :
      (changeQuestionAnswerer 0 q (changeUserState SMain u w.store).2).2.questions =
      w.store.questions.map
        (fun v => if v.id = q.id then { q with answererID := 0 } else v) := by
    unfold changeQuestionAnswerer saveQuestion
    dsimp only
    rw [if_neg hqid]
    dsimp only
    rw [changeUserState_questions]
  refine ⟨by rw [hfinal], ?_, ?_, hisClosed, ?_⟩
  · show (parseMessage allOk now m w).1.store.users.find? (fun v => v.chatID == m.fromID) =
      some { u with state := SMain }
    rw [hstore, husers]
    exact find?_users_replace m.fromID u _ w.store.users hu' rfl
  · show (parseMessage allOk now m w).1.store.questions.find?
      (fun v => (v.id : Int) == (q.id : Int)) = some { q with answererID := 0 }
    rw [hstore, hquestions]
    exact find?_questions_replace q.id { q with answererID := 0 } _
      (by simp) (fun v hv => by simpa using hv) w.store.questions
      ⟨q, List.mem_of_find?_eq_some hq', rfl⟩
  · show (parseMessage allOk now m w).1.store.questions.find?
      (fun v => ((v.id : Int) == (q.id : Int)) && v.answererID == 0 &&
        v.haveAnswer == false && v.isClosed == false) = some { q with answererID := 0 }
    rw [hstore, hquestions]
    refine find?_questions_replace q.id { q with answererID := 0 } _
      (by simp [hha, hisClosed]) (fun v hv => ?_) w.store.questions
      ⟨q, List.mem_of_find?_eq_some hq', rfl⟩
    simp only [Bool.and_eq_true, beq_iff_eq] at hv
    exact_mod_cast hv.1.1.1

def c8cust : User :=
  { id := 1, chatID := 10, nickname := "cust", state := SQuestionDiscussion,
    isEmployee := false, isReceiver := false }

def c8emp : User :=
  { id := 2, chatID := 20, nickname := "emp", state := SQuestionDiscussion,
    isEmployee := true, isReceiver := false }

def c8q : Question :=
  { id := 1, header := "h", userID := 1, answererID := 2, haveAnswer := true,
    isClosed := false }

def c8store : Store :=
  { users := [c8cust, c8emp], reviews := [], questions := [c8q], corrs := [],
    nextUserId := 3, nextReviewId := 1, nextQuestionId := 2, nextCorrId := 1 }

def c8w : World := { store := c8store, offset := 0, outs := [], tick := 0 }

def c8m : Msg := { fromID := 20, fromUserName := "emp", messageID := 9, text := "↩️Back" }

/-- C8 counterexample: the employee had already answered on the question
(haveAnswer = true).  Back releases the claim (answerer cleared, question
still open, employee back in Main) but the question does NOT satisfy the
claim-offer fetch filter afterwards — GetNewQuestionById also requires
have_answer = false — refuting the unconditional "becomes claimable
again". -/
theorem C8_counterexample :
    (parseMessage allOk 0 c8m c8w).2 = true ∧
    getUserByChatID 20 (parseMessage allOk 0 c8m c8w).1.store =
      some { c8emp with state := SMain } ∧
    getQuestionById 1 (parseMessage allOk 0 c8m c8w).1.store =
      some { c8q with answererID := 0 } ∧
    getNewQuestionById 1 (parseMessage allOk 0 c8m c8w).1.store = none := by
  decide

def c8wq : Question :=
  { id := 1, header := "h", userID := 1, answererID := 2, haveAnswer := false,
    isClosed := false }

def c8wstore : Store :=
  { users := [c8cust, c8emp], reviews := [], questions := [c8wq], corrs := [],
    nextUserId := 3, nextReviewId := 1, nextQuestionId := 2, nextCorrId := 1 }

def c8ww : World := { store := c8wstore, offset := 0, outs := [], tick := 0 }

/-- Witness for the amended C8 at a concrete never-answered question. -/
theorem C8_claim_witness :
    (c8m.text = "↩️Back" ∧ getUserByChatID c8m.fromID c8ww.store = some c8emp ∧
      c8emp.isEmployee = true ∧ c8emp.state = SQuestionDiscussion ∧ c8emp.id ≠ 0 ∧
      getOpenQuestionByAnswerer c8emp c8ww.store = some c8wq ∧ c8wq.id ≠ 0 ∧
      c8wq.haveAnswer = false) ∧
    ((parseMessage allOk 0 c8m c8ww).2 = true ∧
      getUserByChatID c8m.fromID (parseMessage allOk 0 c8m c8ww).1.store =
        some { c8emp with state := SMain } ∧
      getQuestionById (c8wq.id : Int) (parseMessage allOk 0 c8m c8ww).1.store =
        some { c8wq with answererID := 0 } ∧
      c8wq.isClosed = false ∧
      getNewQuestionById (c8wq.id : Int) (parseMessage allOk 0 c8m c8ww).1.store =
        some { c8wq with answererID := 0 }) :=
  ⟨⟨rfl, rfl, rfl, rfl, by decide, rfl, by decide, rfl⟩,
    C8_claim 0 c8m c8emp c8wq c8ww rfl rfl rfl rfl (by decide) rfl (by decide) rfl⟩

/-! ## Claim C9 -/

/-- A user found by the AddUser chat-or-nickname filter and then
map-replaced by a record keeping the searched chat id is what the chat
lookup finds afterwards. -/
theorem find?_addUser_replace (c : Int) (n : String) (u0 u1 : User) :
    ∀ l : List User,
    l.find? (fun v => v.chatID == c || v.nickname == n) = some u0 →
    u1.chatID = c →
    (l.map (fun v => if v.id = u0.id then u1 else v)).find? (fun v => v.chatID == c) =
      some u1 := by
  intro l
  induction l with
  | nil => intro h _; simp at h
  | cons d ds ih =>
    intro hfind hc1
    simp only [List.map_cons]
    by_cases hd : (d.chatID == c || d.nickname == n) = true
    · have hpos : List.find? (fun v => v.chatID == c || v.nickname == n) (d :: ds) =
          some d := List.find?_cons_of_pos _ hd
      have hud : d = u0 := by
        rw [hpos] at hfind
        exact Option.some.inj hfind
      subst hud
      rw [if_pos rfl]
      exact List.find?_cons_of_pos _ (show (u1.chatID == c) = true from by rw [hc1]; simp)
    · have hdc : ¬ ((d.chatID == c) = true) := fun h => hd (by simp [h])
      have hneg : List.find? (fun v => v.chatID == c || v.nickname == n) (d :: ds) =
          List.find? (fun v => v.chatID == c || v.nickname == n) ds :=
        List.find?_cons_of_neg _ hd
      have hfind2 : ds.find? (fun v => v.chatID == c || v.nickname == n) = some u0 := by
        rw [hneg] at hfind
        exact hfind
      by_cases hdu : d.id = u0.id
      · rw [if_pos hdu]
        exact List.find?_cons_of_pos _
          (show (u1.chatID == c) = true from by rw [hc1]; simp)
      · rw [if_neg hdu]
        have hneg2 : List.find? (fun v => v.chatID == c)
            (d :: List.map (fun v => if v.id = u0.id then u1 else v) ds) =
            List.find? (fun v => v.chatID == c)
              (List.map (fun v => if v.id = u0.id then u1 else v) ds) :=
          List.find?_cons_of_neg _ hdc
        rw [hneg2]
        exact ih hfind2 hc1

/-- When the AddUser filter finds nobody, the freshly appended record
keeping the searched chat id is what the chat lookup finds afterwards. -/
theorem find?_addUser_append (c : Int) (n : String) (u1 : User) :
    ∀ l : List User,
    l.find? (fun v => v.chatID == c || v.nickname == n) = none →
    u1.chatID = c →
    (l ++ [u1]).find? (fun v => v.chatID == c) = some u1 := by
  intro l
  induction l with
  | nil =>
    intro _ hc1
    simp only [List.nil_append]
    exact List.find?_cons_of_pos _ (show (u1.chatID == c) = true from by rw [hc1]; simp)
  | cons d ds ih =>
    intro hnone hc1
    have hall := List.find?_eq_none.mp hnone
    have hdc : ¬ ((d.chatID == c) = true) :=
      fun h => (hall d (by simp)) (by simp [h])
    simp only [List.cons_append]
    have hneg : List.find? (fun v => v.chatID == c) (d :: (ds ++ [u1])) =
        List.find? (fun v => v.chatID == c) (ds ++ [u1]) :=
      List.find?_cons_of_neg _ hdc
    rw [hneg]
    refine ih ?_ hc1
    rw [List.find?_eq_none]
    intro x hx
    exact hall x (List.mem_cons_of_mem _ hx)

/-- The post-send half of the /start responder: whatever the send oracle
decides, the chat lookup afterwards sees the same isReceiver flag as the
user record saved before. -/
theorem afterSend_users_lookup (u1 : User) (r : World × Bool) (w : World) (c : Int)
    (hr : r.1.store = w.store)
    (hfind : w.store.users.find? (fun v => v.chatID == c) = some u1)
    (hid1 : u1.id ≠ 0) :
    (((if r.2 then
        ({ r.1 with store := (changeUserState SMain u1 r.1.store).2 }, true)
      else (r.1, false)).1.store.users.find? (fun v => v.chatID == c)).map
      (fun v => v.isReceiver)) = some u1.isReceiver := by
  rcases Bool.eq_false_or_eq_true r.2 with h2 | h2
  · rw [if_pos h2]
    dsimp only
    have husers : (changeUserState SMain u1 r.1.store).2.users =
        w.store.users.map (fun v => if v.id = u1.id then { u1 with state := SMain } else v) := by
      unfold changeUserState saveUser
      dsimp only
      rw [if_neg hid1, hr]
    rw [husers]
    rw [find?_users_replace c u1 { u1 with state := SMain } w.store.users hfind rfl]
    rfl
  · rw [if_neg (show ¬ (r.2 = true) from by rw [h2]; exact Bool.false_ne_true)]
    dsimp only
    rw [hr, hfind]
    rfl

/-- responserCommand on /start never flips isReceiver: the chat lookup
afterwards reports the flag of the user record it was handed. -/
theorem responserCommand_users_lookup (ora : Nat → Bool) (u1 : User) (w : World) (c : Int)
    (hfind : w.store.users.find? (fun v => v.chatID == c) = some u1)
    (hid1 : u1.id ≠ 0) :
    (((responserCommand ora "/start" u1 w).1.store.users.find?
      (fun v => v.chatID == c)).map (fun v => v.isReceiver)) = some u1.isReceiver := by
  unfold responserCommand responserCommandEmployee responserCommandUser
  by_cases hemp : u1.isEmployee = true
  · rw [if_pos hemp, if_pos rfl]
    dsimp only
    exact afterSend_users_lookup u1 _ w c (sendO_store _ _ _) hfind hid1
  · rw [if_neg hemp, if_pos rfl]
    dsimp only
    exact afterSend_users_lookup u1 _ w c (sendO_store _ _ _) hfind hid1

/-- C9: processing the /start command always resets the sender's
IsReceiver flag to false (for any send oracle and any sender, customer or
employee): AddUser hard-codes IsReceiver = false on the upserted record
and the rest of the command path never sets it back. -/
theorem C9_claim (ora : Nat → Bool) (now : Nat) (m : Msg) (w : World)
    (hstart : m.text = "/start")
    (hids : ∀ v ∈ w.store.users, v.id ≠ 0)
    (hnz : w.store.nextUserId ≠ 0) :
    ((getUserByChatID m.fromID (parseMessage ora now m w).1.store).map
      (fun v => v.isReceiver)) = some false := by
  have key : ((addUser m.fromID m.fromUserName SNew w.store).2.users.find?
        (fun v => v.chatID == m.fromID)) =
        some (addUser m.fromID m.fromUserName SNew w.store).1 ∧
      (addUser m.fromID m.fromUserName SNew w.store).1.isReceiver = false ∧
      (addUser m.fromID m.fromUserName SNew w.store).1.id ≠ 0 := by
    unfold addUser
    dsimp only
    rcases hfd : w.store.users.find?
        (fun v => v.chatID == m.fromID || v.nickname == m.fromUserName) with _ | u0
    · rw [hfd]
      dsimp only [Option.getD]
      unfold saveUser
      dsimp only
      rw [if_pos rfl]
      dsimp only
      exact ⟨find?_addUser_append m.fromID m.fromUserName _ w.store.users hfd rfl, rfl, hnz⟩
    · rw [hfd]
      dsimp only [Option.getD]
      have hid0 : u0.id ≠ 0 := hids u0 (List.mem_of_find?_eq_some hfd)
      unfold saveUser
      dsimp only
      rw [if_neg hid0]
      dsimp only
      exact ⟨find?_addUser_replace m.fromID m.fromUserName u0 _ w.store.users hfd rfl,
        rfl, hid0⟩
  unfold parseMessage parseCommand
  dsimp only
  rw [hstart]
  rw [if_pos rfl]
  dsimp only
  rw [if_pos rfl]
  dsimp only
  rcases hoq : getOpenQuestionByUser (addUser m.fromID m.fromUserName SNew w.store).1
      (addUser m.fromID m.fromUserName SNew w.store).2 with _ | q
  · dsimp only
    have happ := responserCommand_users_lookup ora
      ((addUser m.fromID m.fromUserName SNew w.store).1)
      { w with store := (addUser m.fromID m.fromUserName SNew w.store).2 } m.fromID
      key.1 key.2.2
    rw [key.2.1] at happ
    exact happ
  · dsimp only
    have hqu : (changeQuestionIsClosed true q
        (addUser m.fromID m.fromUserName SNew w.store).2).2.users =
        (addUser m.fromID m.fromUserName SNew w.store).2.users := by
      unfold changeQuestionIsClosed
      exact saveQuestion_users _ _
    have happ := responserCommand_users_lookup ora
      ((addUser m.fromID m.fromUserName SNew w.store).1)
      { w with store := (changeQuestionIsClosed true q
        (addUser m.fromID m.fromUserName SNew w.store).2).2 } m.fromID
      (by
        show (changeQuestionIsClosed true q
          (addUser m.fromID m.fromUserName SNew w.store).2).2.users.find?
          (fun v => v.chatID == m.fromID) =
          some (addUser m.fromID m.fromUserName SNew w.store).1
        rw [hqu]
        exact key.1) key.2.2
    rw [key.2.1] at happ
    exact happ

def c9emp : User :=
  { id := 1, chatID := 7, nickname := "e", state := SMain, isEmployee := true,
    isReceiver := true }

def c9store : Store :=
  { users := [c9emp], reviews := [], questions := [], corrs := [],
    nextUserId := 2, nextReviewId := 1, nextQuestionId := 1, nextCorrId := 1 }

def c9w : World := { store := c9store, offset := 0, outs := [], tick := 0 }

def c9m : Msg := { fromID := 7, fromUserName := "e", messageID := 1, text := "/start" }

/-- Witness for C9: a receiving employee re-sends /start and is no longer
a receiver. -/
theorem C9_claim_witness :
    (c9m.text = "/start" ∧ (∀ v ∈ c9w.store.users, v.id ≠ 0) ∧
      c9w.store.nextUserId ≠ 0) ∧
    ((getUserByChatID c9m.fromID (parseMessage allOk 0 c9m c9w).1.store).map
      (fun v => v.isReceiver)) = some false :=
  ⟨⟨rfl, by decide, by decide⟩, C9_claim allOk 0 c9m c9w rfl (by decide) (by decide)⟩

end FeedbackBot
